import Mathlib

/-!
# ApiCheck: version-gated, compute-once capability probes

A shallow embedding of `ApiCheckCore.h` and of the wrappers of `ApiCheck.cpp`.

* `WindowsVersion` is the `enum class WindowsVersion : std::uint16_t`; a value is its
  underlying 16-bit number, and `static_cast` back to the enum reduces modulo `2^16`.
* `RequiredVersion` is the constant an application sets to the minimum version of its
  manifest; the functions that read it take it as their first argument `required`, and
  `RequiredVersion` below is the value the header ships with (`TH1`).
* The platform is `ApiInformationStatics`: what `GetActivationFactory` and each method of
  `IApiInformationStatics` would answer at the moment of a call.
* `IsAtLeast`, the five existence checks and `ApiInformation()` are `static`: every
  translation unit that includes the header has its own copy of each, with its own
  function-local `static`.  A string template argument is a `const wchar_t[]` object, so two
  arrays holding the same text give two instantiations.  Every function-local `static` is
  one cell of the state, keyed by translation unit, function template and template
  arguments.
* `State.log` records the `IApiInformationStatics` calls in the order they were issued.
  `__fastfail` ends the run with `Except.error`.
* Calls are sequential; the thread-safe initialisation of the statics is not modelled.
-/

namespace ApiCheck

/-! ## Constants and enums -/

/-- Represents a Windows OS version: the underlying `std::uint16_t` of the enum. -/
structure WindowsVersion where
  raw : Nat
  deriving DecidableEq

namespace WindowsVersion

def TH1 : WindowsVersion := ⟨1⟩
def TH2 : WindowsVersion := ⟨2⟩
def RS1 : WindowsVersion := ⟨3⟩
def RS2 : WindowsVersion := ⟨4⟩
def RS3 : WindowsVersion := ⟨5⟩
def RS4 : WindowsVersion := ⟨6⟩
def RS5 : WindowsVersion := ⟨7⟩
def CY19H1 : WindowsVersion := ⟨8⟩
def CY20H1 : WindowsVersion := ⟨10⟩
def None : WindowsVersion := ⟨0xffff⟩

/-- The enumerators other than `None`, in declaration order. -/
def defined : List WindowsVersion :=
  [TH1, TH2, RS1, RS2, RS3, RS4, RS5, CY19H1, CY20H1]

end WindowsVersion

open WindowsVersion

/-- The minimum required version of this app, as the header ships it. -/
def RequiredVersion : WindowsVersion := WindowsVersion.TH1

/-! ## Internal helpers -/

/-- `other != None && uint16(other) < uint16(RequiredVersion)`; the first argument is the
`RequiredVersion` constant. -/
def IsBeforeAppRequiredVersion (required other : WindowsVersion) : Bool :=
  other != WindowsVersion.None && decide (other.raw < required.raw)

/-- `static_cast<WindowsVersion>` of an `int`. -/
def castToVersion (i : Int) : WindowsVersion := ⟨(i % 65536).toNat⟩

def VersionBefore (current : WindowsVersion) : WindowsVersion :=
  if current = WindowsVersion.CY20H1 then WindowsVersion.CY19H1
  else castToVersion ((current.raw : Int) - 1)

def VersionAfter (current : WindowsVersion) : WindowsVersion :=
  if current = WindowsVersion.CY19H1 then WindowsVersion.CY20H1
  else castToVersion ((current.raw : Int) + 1)

/-- An `HRESULT`. -/
abbrev HRESULT := Int

def SUCCEEDED (hr : HRESULT) : Bool := decide (0 ≤ hr)

/-- What one call of an `IApiInformationStatics` method leaves behind: its `HRESULT` and the
truth value of the `boolean` out-parameter afterwards (every caller initialises it to
`false`). -/
structure Outcome where
  hr : HRESULT
  bResult : Bool
  deriving DecidableEq

/-- The platform at the moment of a call: the `HRESULT` of
`Windows::Foundation::GetActivationFactory` for the `ApiInformation` runtime class, and the
outcome of each `IApiInformationStatics` method on each argument. -/
structure ApiInformationStatics where
  GetActivationFactory : HRESULT
  IsApiContractPresentByMajor : String → Nat → Outcome
  IsTypePresent : String → Outcome
  IsPropertyPresent : String → String → Outcome
  IsMethodPresent : String → String → Outcome
  IsEventPresent : String → String → Outcome
  IsEnumNamedValuePresent : String → String → Outcome

/-- One issued `IApiInformationStatics` call; the strings are the characters passed. -/
inductive Query where
  | IsApiContractPresentByMajor (contract : String) (major : Nat)
  | IsTypePresent (typeName : String)
  | IsPropertyPresent (typeName propertyName : String)
  | IsMethodPresent (typeName methodName : String)
  | IsEventPresent (typeName eventName : String)
  | IsEnumNamedValuePresent (enumName valueName : String)
  deriving DecidableEq

/-- A translation unit that includes the header, named by its source file. -/
abbrev TranslationUnit := String

/-- A `const wchar_t[]` object with linkage, as a template argument takes it: the object,
named by its symbol, and the characters it holds.  Two objects may hold the same
characters. -/
structure WCharArray where
  symbol : String
  text : String
  deriving DecidableEq

/-- An instantiation of one of the five API existence checks in a translation unit. -/
inductive Probe where
  | IsTypePresent (unit : TranslationUnit) (RuntimeClass : WCharArray)
      (IntroducedIn : WindowsVersion)
  | IsPropertyPresent (unit : TranslationUnit) (RuntimeClass Property : WCharArray)
      (IntroducedIn : WindowsVersion)
  | IsMethodPresent (unit : TranslationUnit) (RuntimeClass Method : WCharArray)
      (IntroducedIn : WindowsVersion)
  | IsEventPresent (unit : TranslationUnit) (RuntimeClass Event : WCharArray)
      (IntroducedIn : WindowsVersion)
  | IsEnumNamedValuePresent (unit : TranslationUnit) (Enum NamedValue : WCharArray)
      (IntroducedIn : WindowsVersion)
  deriving DecidableEq

/-- An instantiation, in a translation unit, of a function template that owns a
`static const bool`: `IsAtLeast<Version>` or one of the API existence checks. -/
inductive Call where
  | IsAtLeast (unit : TranslationUnit) (Version : WindowsVersion)
  | probe (p : Probe)
  deriving DecidableEq

/-- The function-local statics of every translation unit and the calls issued so far. -/
structure State where
  /-- whether `s_spApiInformationStatics` of the unit's `ApiInformation()` is initialised -/
  s_spApiInformationStatics : TranslationUnit → Bool
  /-- the `s_isPresent` of each instantiation, `none` until it is initialised -/
  statics : Call → Option Bool
  /-- the `IApiInformationStatics` calls issued, oldest first -/
  log : List Query

/-- Nothing initialised, nothing issued. -/
def State.initial : State := ⟨fun _ => false, fun _ => none, []⟩

def State.store (s : State) (cell : Call) (v : Bool) : State :=
  { s with statics := fun c => if c = cell then some v else s.statics c }

/-- The state once the unit's `s_spApiInformationStatics` holds the factory. -/
def State.holdFactory (s : State) (unit : TranslationUnit) : State :=
  { s with s_spApiInformationStatics :=
      fun u => if u = unit then true else s.s_spApiInformationStatics u }

/-- A returned value with the state it leaves, or the `__fastfail` code. -/
abbrev Run (α : Type) := Except HRESULT (α × State)

/-- `InternalGetActivationFactory` under the static of the unit's `ApiInformation()`: the
factory is fetched on the unit's first use only, and a failure is `__fastfail(hr)`. -/
def ApiInformation (api : ApiInformationStatics) (unit : TranslationUnit) (s : State) :
    Except HRESULT State :=
  if s.s_spApiInformationStatics unit then .ok s
  else if SUCCEEDED api.GetActivationFactory then .ok (s.holdFactory unit)
  else .error api.GetActivationFactory

/-- The common shape of the `InternalGetIs...` wrappers: fetch `ApiInformation()`, issue the
call, return `SUCCEEDED(hr) && bResult`. -/
def issue (api : ApiInformationStatics) (unit : TranslationUnit) (q : Query) (r : Outcome)
    (s : State) : Run Bool :=
  match ApiInformation api unit s with
  | .error hr => .error hr
  | .ok s1 => .ok (SUCCEEDED r.hr && r.bResult, { s1 with log := s1.log ++ [q] })

def InternalGetIsApiContractPresent (api : ApiInformationStatics) (unit : TranslationUnit)
    (szApiContract : String) (apiContractVersion : Nat) : State → Run Bool :=
  issue api unit (.IsApiContractPresentByMajor szApiContract apiContractVersion)
    (api.IsApiContractPresentByMajor szApiContract apiContractVersion)

def InternalGetIsTypePresent (api : ApiInformationStatics) (unit : TranslationUnit)
    (szRuntimeClass : String) : State → Run Bool :=
  issue api unit (.IsTypePresent szRuntimeClass) (api.IsTypePresent szRuntimeClass)

def InternalGetIsPropertyPresent (api : ApiInformationStatics) (unit : TranslationUnit)
    (szRuntimeClass szProperty : String) : State → Run Bool :=
  issue api unit (.IsPropertyPresent szRuntimeClass szProperty)
    (api.IsPropertyPresent szRuntimeClass szProperty)

def InternalGetIsMethodPresent (api : ApiInformationStatics) (unit : TranslationUnit)
    (szRuntimeClass szMethod : String) : State → Run Bool :=
  issue api unit (.IsMethodPresent szRuntimeClass szMethod)
    (api.IsMethodPresent szRuntimeClass szMethod)

def InternalGetIsEventPresent (api : ApiInformationStatics) (unit : TranslationUnit)
    (szRuntimeClass szEvent : String) : State → Run Bool :=
  issue api unit (.IsEventPresent szRuntimeClass szEvent)
    (api.IsEventPresent szRuntimeClass szEvent)

def InternalGetIsEnumNamedValuePresent (api : ApiInformationStatics)
    (unit : TranslationUnit) (szEnum szNamedValue : String) : State → Run Bool :=
  issue api unit (.IsEnumNamedValuePresent szEnum szNamedValue)
    (api.IsEnumNamedValuePresent szEnum szNamedValue)

/-- A `static const bool s_isPresent{ init }` followed by `return s_isPresent`: the
initialiser runs on the first call only. -/
def staticLocal (cell : Call) (init : State → Run Bool) (s : State) : Run Bool :=
  match s.statics cell with
  | some v => .ok (v, s)
  | none =>
    match init s with
    | .error hr => .error hr
    | .ok (v, s1) => .ok (v, s1.store cell v)

/-! ## Direct Windows OS version checks -/

/-- Returns true if the app is running on the specified version of Windows or a later one. -/
def IsAtLeast (required : WindowsVersion) (api : ApiInformationStatics)
    (unit : TranslationUnit) (Version : WindowsVersion) : State → Run Bool :=
  staticLocal (.IsAtLeast unit Version) fun s =>
    if IsBeforeAppRequiredVersion required Version then .ok (true, s)
    else InternalGetIsApiContractPresent api unit "Windows.Foundation.UniversalApiContract"
      Version.raw s

/-- `IntroducedIn != None && IsAtLeast<VersionAfter(IntroducedIn)>()`. -/
def CanAssumeApiIsPresentIfIntroducedIn (required : WindowsVersion)
    (api : ApiInformationStatics) (unit : TranslationUnit) (IntroducedIn : WindowsVersion)
    (s : State) : Run Bool :=
  if IntroducedIn != WindowsVersion.None then
    IsAtLeast required api unit (VersionAfter IntroducedIn) s
  else .ok (false, s)

/-- `IntroducedIn != None && !IsAtLeast<IntroducedIn>()`. -/
def CanAssumeApiIsNotPresentIfIntroducedIn (required : WindowsVersion)
    (api : ApiInformationStatics) (unit : TranslationUnit) (IntroducedIn : WindowsVersion)
    (s : State) : Run Bool :=
  if IntroducedIn != WindowsVersion.None then
    match IsAtLeast required api unit IntroducedIn s with
    | .error hr => .error hr
    | .ok (b, s1) => .ok (!b, s1)
  else .ok (false, s)

/-! ## API existence checks -/

/-- The initialiser shared by the five checks:
`!CanAssumeApiIsNotPresentIfIntroducedIn<V>() && (CanAssumeApiIsPresentIfIntroducedIn<V>() || get)`,
with the short-circuit evaluation of `&&` and `||`. -/
def isPresentInit (required : WindowsVersion) (api : ApiInformationStatics)
    (unit : TranslationUnit) (IntroducedIn : WindowsVersion) (get : State → Run Bool)
    (s : State) : Run Bool :=
  match CanAssumeApiIsNotPresentIfIntroducedIn required api unit IntroducedIn s with
  | .error hr => .error hr
  | .ok (true, s1) => .ok (false, s1)
  | .ok (false, s1) =>
    match CanAssumeApiIsPresentIfIntroducedIn required api unit IntroducedIn s1 with
    | .error hr => .error hr
    | .ok (true, s2) => .ok (true, s2)
    | .ok (false, s2) => get s2

def IsTypePresent (required : WindowsVersion) (api : ApiInformationStatics)
    (unit : TranslationUnit) (RuntimeClass : WCharArray) (IntroducedIn : WindowsVersion) :
    State → Run Bool :=
  staticLocal (.probe (.IsTypePresent unit RuntimeClass IntroducedIn))
    (isPresentInit required api unit IntroducedIn
      (InternalGetIsTypePresent api unit RuntimeClass.text))

def IsPropertyPresent (required : WindowsVersion) (api : ApiInformationStatics)
    (unit : TranslationUnit) (RuntimeClass Property : WCharArray)
    (IntroducedIn : WindowsVersion) : State → Run Bool :=
  staticLocal (.probe (.IsPropertyPresent unit RuntimeClass Property IntroducedIn))
    (isPresentInit required api unit IntroducedIn
      (InternalGetIsPropertyPresent api unit RuntimeClass.text Property.text))

def IsMethodPresent (required : WindowsVersion) (api : ApiInformationStatics)
    (unit : TranslationUnit) (RuntimeClass Method : WCharArray)
    (IntroducedIn : WindowsVersion) : State → Run Bool :=
  staticLocal (.probe (.IsMethodPresent unit RuntimeClass Method IntroducedIn))
    (isPresentInit required api unit IntroducedIn
      (InternalGetIsMethodPresent api unit RuntimeClass.text Method.text))

def IsEventPresent (required : WindowsVersion) (api : ApiInformationStatics)
    (unit : TranslationUnit) (RuntimeClass Event : WCharArray)
    (IntroducedIn : WindowsVersion) : State → Run Bool :=
  staticLocal (.probe (.IsEventPresent unit RuntimeClass Event IntroducedIn))
    (isPresentInit required api unit IntroducedIn
      (InternalGetIsEventPresent api unit RuntimeClass.text Event.text))

def IsEnumNamedValuePresent (required : WindowsVersion) (api : ApiInformationStatics)
    (unit : TranslationUnit) (Enum NamedValue : WCharArray)
    (IntroducedIn : WindowsVersion) : State → Run Bool :=
  staticLocal (.probe (.IsEnumNamedValuePresent unit Enum NamedValue IntroducedIn))
    (isPresentInit required api unit IntroducedIn
      (InternalGetIsEnumNamedValuePresent api unit Enum.text NamedValue.text))

/-! ## The wrappers of `ApiCheck.cpp` -/

/-- The translation unit of `ApiCheck.cpp`, where the wrappers are defined. -/
def ApiCheck_cpp : TranslationUnit := "ApiCheck.cpp"

/-- The translation unit of `Program.cpp`, which includes the header too. -/
def Program_cpp : TranslationUnit := "Program.cpp"

/-- `RuntimeClass_Windows_UI_Xaml_UIElement` of the Windows SDK headers. -/
def RuntimeClass_Windows_UI_Xaml_UIElement : WCharArray :=
  ⟨"RuntimeClass_Windows_UI_Xaml_UIElement", "Windows.UI.Xaml.UIElement"⟩

/-- `Details::Strings::PreviewKeyDown`. -/
def PreviewKeyDown : WCharArray := ⟨"Details::Strings::PreviewKeyDown", "PreviewKeyDown"⟩

def ArePreviewKeyEventsAvailable (required : WindowsVersion) (api : ApiInformationStatics) :
    State → Run Bool :=
  IsPropertyPresent required api ApiCheck_cpp RuntimeClass_Windows_UI_Xaml_UIElement
    PreviewKeyDown WindowsVersion.RS3

/-! ## Uniform access to the instantiations -/

def Probe.unit : Probe → TranslationUnit
  | .IsTypePresent u _ _ => u
  | .IsPropertyPresent u _ _ _ => u
  | .IsMethodPresent u _ _ _ => u
  | .IsEventPresent u _ _ _ => u
  | .IsEnumNamedValuePresent u _ _ _ => u

def Probe.IntroducedIn : Probe → WindowsVersion
  | .IsTypePresent _ _ v => v
  | .IsPropertyPresent _ _ _ v => v
  | .IsMethodPresent _ _ _ v => v
  | .IsEventPresent _ _ _ v => v
  | .IsEnumNamedValuePresent _ _ _ v => v

/-- The `IApiInformationStatics` call a check falls back to: its kind and the characters of
its name(s). -/
def Probe.query : Probe → Query
  | .IsTypePresent _ c _ => .IsTypePresent c.text
  | .IsPropertyPresent _ c m _ => .IsPropertyPresent c.text m.text
  | .IsMethodPresent _ c m _ => .IsMethodPresent c.text m.text
  | .IsEventPresent _ c m _ => .IsEventPresent c.text m.text
  | .IsEnumNamedValuePresent _ c m _ => .IsEnumNamedValuePresent c.text m.text

/-- What the platform answers to a call. -/
def ApiInformationStatics.outcome (api : ApiInformationStatics) : Query → Outcome
  | .IsApiContractPresentByMajor c v => api.IsApiContractPresentByMajor c v
  | .IsTypePresent c => api.IsTypePresent c
  | .IsPropertyPresent c m => api.IsPropertyPresent c m
  | .IsMethodPresent c m => api.IsMethodPresent c m
  | .IsEventPresent c m => api.IsEventPresent c m
  | .IsEnumNamedValuePresent c m => api.IsEnumNamedValuePresent c m

/-- The `InternalGetIs...` wrapper that issues the given call. -/
def InternalGet (api : ApiInformationStatics) (unit : TranslationUnit) :
    Query → State → Run Bool
  | .IsApiContractPresentByMajor c v => InternalGetIsApiContractPresent api unit c v
  | .IsTypePresent c => InternalGetIsTypePresent api unit c
  | .IsPropertyPresent c m => InternalGetIsPropertyPresent api unit c m
  | .IsMethodPresent c m => InternalGetIsMethodPresent api unit c m
  | .IsEventPresent c m => InternalGetIsEventPresent api unit c m
  | .IsEnumNamedValuePresent c m => InternalGetIsEnumNamedValuePresent api unit c m

/-- Calling the function an instantiation of an existence check names. -/
def Probe.run (required : WindowsVersion) (api : ApiInformationStatics) :
    Probe → State → Run Bool
  | .IsTypePresent u c v => ApiCheck.IsTypePresent required api u c v
  | .IsPropertyPresent u c m v => ApiCheck.IsPropertyPresent required api u c m v
  | .IsMethodPresent u c m v => ApiCheck.IsMethodPresent required api u c m v
  | .IsEventPresent u c m v => ApiCheck.IsEventPresent required api u c m v
  | .IsEnumNamedValuePresent u c m v => ApiCheck.IsEnumNamedValuePresent required api u c m v

def Call.unit : Call → TranslationUnit
  | .IsAtLeast u _ => u
  | .probe p => p.unit

/-- The contract-version call of `IsAtLeast<Version>`, or the fallback call of a check. -/
def Call.query : Call → Query
  | .IsAtLeast _ v =>
    .IsApiContractPresentByMajor "Windows.Foundation.UniversalApiContract" v.raw
  | .probe p => p.query

def Call.run (required : WindowsVersion) (api : ApiInformationStatics) :
    Call → State → Run Bool
  | .IsAtLeast u v => ApiCheck.IsAtLeast required api u v
  | .probe p => p.run required api

/-- A sequence of calls, each made while the platform is as paired with it; the returned
values are listed in call order. -/
def runCalls (required : WindowsVersion) :
    List (Call × ApiInformationStatics) → State → Run (List Bool)
  | [], s => .ok ([], s)
  | (c, api) :: rest, s =>
    match c.run required api s with
    | .error hr => .error hr
    | .ok (b, s1) =>
      match runCalls required rest s1 with
      | .error hr => .error hr
      | .ok (bs, s2) => .ok (b :: bs, s2)

/-- What a run lets an observer see: the returned value and the calls issued. -/
def observe {α : Type} : Run α → Option (α × List Query)
  | .error _ => none
  | .ok (a, s) => some (a, s.log)

/-! ## Vocabulary of the statements -/

/-- Whether the unit's `ApiInformation()` returns: the factory is already held, or fetching
it succeeds. -/
def handleAvailable (api : ApiInformationStatics) (unit : TranslationUnit) (s : State) :
    Bool :=
  s.s_spApiInformationStatics unit || SUCCEEDED api.GetActivationFactory

/-- The state after the unit's `ApiInformation()` returned and one call was issued. -/
def State.issued (s : State) (unit : TranslationUnit) (q : Query) : State :=
  { s.holdFactory unit with log := s.log ++ [q] }

/-- `SUCCEEDED(hr) && bResult`, the value an `InternalGetIs...` wrapper returns. -/
def Outcome.value (r : Outcome) : Bool := SUCCEEDED r.hr && r.bResult

/-- No static contradicts the required version: `IsAtLeast<V>` does not hold `false` for a
`V` before the required version, and an existence check does not hold `false` when both
its `IntroducedIn` and the version after it are before the required version. -/
def BaselineCoherent (required : WindowsVersion) (s : State) : Prop :=
  (∀ u V, IsBeforeAppRequiredVersion required V = true →
    s.statics (.IsAtLeast u V) ≠ some false) ∧
  (∀ p : Probe, IsBeforeAppRequiredVersion required p.IntroducedIn = true →
    IsBeforeAppRequiredVersion required (VersionAfter p.IntroducedIn) = true →
    s.statics (.probe p) ≠ some false)

/-! ## Example platforms and instantiations -/

/-- `E_FAIL`. -/
def E_FAIL : HRESULT := -2147467259

/-- A platform given by its activation result, its answer to each contract major version
and its answer to each other call. -/
def platform (activation : HRESULT) (contract : Nat → Outcome) (capability : Query → Outcome) :
    ApiInformationStatics where
  GetActivationFactory := activation
  IsApiContractPresentByMajor := fun _ v => contract v
  IsTypePresent := fun c => capability (.IsTypePresent c)
  IsPropertyPresent := fun c m => capability (.IsPropertyPresent c m)
  IsMethodPresent := fun c m => capability (.IsMethodPresent c m)
  IsEventPresent := fun c m => capability (.IsEventPresent c m)
  IsEnumNamedValuePresent := fun c m => capability (.IsEnumNamedValuePresent c m)

/-- A build of exactly the given contract major version on which every call succeeds and
every type, member and value asked about exists. -/
def runningExactly (major : Nat) : ApiInformationStatics :=
  platform 0 (fun v => ⟨0, decide (v ≤ major)⟩) (fun _ => ⟨0, true⟩)

/-- Every call fails with `E_FAIL`, having written `true` to its out-parameter; the factory
itself can be fetched. -/
def failingPlatform : ApiInformationStatics :=
  platform 0 (fun _ => ⟨E_FAIL, true⟩) (fun _ => ⟨E_FAIL, true⟩)

/-- The factory cannot be fetched and every call would fail. -/
def deadPlatform : ApiInformationStatics :=
  platform E_FAIL (fun _ => ⟨E_FAIL, false⟩) (fun _ => ⟨E_FAIL, false⟩)

/-- Contract major version 6 is reported present and no other; every call succeeds and
every type, member and value asked about exists. -/
def onlyContract6 : ApiInformationStatics :=
  platform 0 (fun v => ⟨0, v == 6⟩) (fun _ => ⟨0, true⟩)

/-- A build of exactly `RS3` that has the event `UIElement.PreviewKeyDown`: the event call
for it answers `true`, every other type, member and value call answers `false`. -/
def previewKeyPlatform : ApiInformationStatics :=
  platform 0 (fun v => ⟨0, decide (v ≤ 5)⟩)
    (fun q => ⟨0, decide (q = .IsEventPresent "Windows.UI.Xaml.UIElement" "PreviewKeyDown")⟩)

/-- An array `extern const wchar_t C[] = L"C"`. -/
def arrayC : WCharArray := ⟨"C", "C"⟩

/-- Another array holding the same characters, `extern const wchar_t CAgain[] = L"C"`. -/
def arrayCAgain : WCharArray := ⟨"CAgain", "C"⟩

/-- The instantiation `IsTypePresent<C, IntroducedIn>` of `ApiCheck.cpp`. -/
def typeC (IntroducedIn : WindowsVersion) : Probe :=
  .IsTypePresent ApiCheck_cpp arrayC IntroducedIn

/-- `IsTypePresent<C, RS3>()` followed by `IsTypePresent<C, None>()`, both called in
`ApiCheck.cpp` on the given platform. -/
def sameNameCalls (api : ApiInformationStatics) : List (Call × ApiInformationStatics) :=
  [(.probe (typeC WindowsVersion.RS3), api), (.probe (typeC WindowsVersion.None), api)]

/-! ## The compute-once static and the wrappers -/

theorem staticLocal_cached {cell : Call} {init : State → Run Bool} {s : State} {v : Bool}
    (h : s.statics cell = some v) : staticLocal cell init s = .ok (v, s) := by
  simp [staticLocal, h]

theorem staticLocal_first {cell : Call} {init : State → Run Bool} {s s1 : State} {v : Bool}
    (h : s.statics cell = none) (hi : init s = .ok (v, s1)) :
    staticLocal cell init s = .ok (v, s1.store cell v) := by
  simp [staticLocal, h, hi]

theorem staticLocal_of_ok {cell : Call} {init : State → Run Bool} {s s' : State} {b : Bool}
    (hfirst : s.statics cell = none) (h : staticLocal cell init s = .ok (b, s')) :
    ∃ s0, init s = .ok (b, s0) ∧ s' = s0.store cell b := by
  simp only [staticLocal, hfirst] at h
  split at h
  · cases h
  · rename_i v s0 hi
    cases h
    exact ⟨s0, hi, rfl⟩

theorem store_log (s : State) (c : Call) (v : Bool) : (s.store c v).log = s.log := rfl

theorem store_same (s : State) (c : Call) (v : Bool) : (s.store c v).statics c = some v := by
  simp [State.store]

theorem store_other (s : State) {c d : Call} (v : Bool) (h : d ≠ c) :
    (s.store c v).statics d = s.statics d := by
  simp [State.store, h]

theorem kept_store {s : State} {c : Call} (h : s.statics c = none) (b : Bool) (d : Call)
    (v : Bool) (hd : s.statics d = some v) : (s.store c b).statics d = some v := by
  have hne : d ≠ c := by
    rintro rfl
    simp [h] at hd
  rw [store_other _ _ hne, hd]

theorem holdFactory_of_held {s : State} {u : TranslationUnit}
    (h : s.s_spApiInformationStatics u = true) : s.holdFactory u = s := by
  cases s with
  | mk held statics log =>
    have hfun : (fun w => if w = u then true else held w) = held := by
      funext w
      by_cases hw : w = u
      · subst hw
        simpa using h.symm
      · simp [hw]
    simp only [State.holdFactory, hfun]

theorem issued_count (s : State) (u : TranslationUnit) (q : Query) :
    (s.issued u q).log.count q = s.log.count q + 1 := by
  simp [State.issued, List.count_append]

theorem issued_count_ne (s : State) (u : TranslationUnit) {q r : Query} (h : r ≠ q) :
    (s.issued u q).log.count r = s.log.count r := by
  simp [State.issued, List.count_append, List.count_cons, Ne.symm h]

/-- Once a unit can fetch or holds the factory, it still can after any other unit fetched
it, after a call was issued, and after a static was set. -/
theorem handleAvailable_issued {api : ApiInformationStatics} {w : TranslationUnit}
    {s : State} (u : TranslationUnit) (q : Query) (h : handleAvailable api w s = true) :
    handleAvailable api w (s.issued u q) = true := by
  simp only [handleAvailable, State.issued, State.holdFactory, Bool.or_eq_true] at h ⊢
  rcases h with h | h
  · by_cases hw : w = u
    · simp [hw]
    · simp [hw, h]
  · exact Or.inr h

theorem issue_ok {api : ApiInformationStatics} {u : TranslationUnit} {s : State} (q : Query)
    (r : Outcome) (hh : handleAvailable api u s = true) :
    issue api u q r s = .ok (r.value, s.issued u q) := by
  unfold issue ApiInformation
  by_cases h1 : s.s_spApiInformationStatics u = true
  · simp [h1, State.issued, Outcome.value, holdFactory_of_held h1]
  · have h2 : SUCCEEDED api.GetActivationFactory = true := by
      simpa [handleAvailable, h1] using hh
    simp [h1, h2, State.issued, Outcome.value, State.holdFactory]

theorem issue_of_ok {api : ApiInformationStatics} {u : TranslationUnit} {q : Query}
    {r : Outcome} {s s1 : State} {b : Bool} (h : issue api u q r s = .ok (b, s1)) :
    handleAvailable api u s = true ∧ b = r.value ∧ s1 = s.issued u q := by
  by_cases hh : handleAvailable api u s = true
  · rw [issue_ok q r hh] at h
    cases h
    exact ⟨hh, rfl, rfl⟩
  · simp only [handleAvailable, Bool.or_eq_true, not_or, Bool.not_eq_true] at hh
    simp [issue, ApiInformation, hh.1, hh.2] at h

theorem InternalGet_ok {api : ApiInformationStatics} {u : TranslationUnit} {s : State}
    (q : Query) (hh : handleAvailable api u s = true) :
    InternalGet api u q s = .ok ((api.outcome q).value, s.issued u q) := by
  cases q <;> exact issue_ok _ _ hh

theorem InternalGet_of_ok {api : ApiInformationStatics} {u : TranslationUnit} {q : Query}
    {s s1 : State} {b : Bool} (h : InternalGet api u q s = .ok (b, s1)) :
    handleAvailable api u s = true ∧ b = (api.outcome q).value ∧ s1 = s.issued u q := by
  cases q <;> exact issue_of_ok h

theorem Probe.query_ne_contract (p : Probe) (c : String) (v : Nat) :
    p.query ≠ Query.IsApiContractPresentByMajor c v := by
  cases p <;> simp [Probe.query]

theorem Probe.run_eq (required : WindowsVersion) (api : ApiInformationStatics) (p : Probe) :
    p.run required api = staticLocal (.probe p)
      (isPresentInit required api p.unit p.IntroducedIn (InternalGet api p.unit p.query)) := by
  cases p <;> rfl

/-! ## `IsAtLeast` -/

theorem IsAtLeast_cached {required : WindowsVersion} {api : ApiInformationStatics}
    {u : TranslationUnit} {V : WindowsVersion} {s : State} {v : Bool}
    (h : s.statics (.IsAtLeast u V) = some v) :
    IsAtLeast required api u V s = .ok (v, s) :=
  staticLocal_cached h

theorem IsAtLeast_before {required : WindowsVersion} {api : ApiInformationStatics}
    {u : TranslationUnit} {V : WindowsVersion} {s : State}
    (h : s.statics (.IsAtLeast u V) = none)
    (hb : IsBeforeAppRequiredVersion required V = true) :
    IsAtLeast required api u V s = .ok (true, s.store (.IsAtLeast u V) true) :=
  staticLocal_first h (by simp [hb])

theorem IsAtLeast_query {required : WindowsVersion} {api : ApiInformationStatics}
    {u : TranslationUnit} {V : WindowsVersion} {s : State}
    (h : s.statics (.IsAtLeast u V) = none)
    (hb : IsBeforeAppRequiredVersion required V = false)
    (hh : handleAvailable api u s = true) :
    IsAtLeast required api u V s =
      .ok ((api.outcome (Call.IsAtLeast u V).query).value,
        (s.issued u (Call.IsAtLeast u V).query).store (.IsAtLeast u V)
          (api.outcome (Call.IsAtLeast u V).query).value) :=
  staticLocal_first h (by simpa [hb, InternalGetIsApiContractPresent] using issue_ok _ _ hh)

/-- A first call of `IsAtLeast` that returns took one of its two paths. -/
theorem IsAtLeast_of_ok {required : WindowsVersion} {api : ApiInformationStatics}
    {u : TranslationUnit} {V : WindowsVersion} {s s1 : State} {b : Bool}
    (hfirst : s.statics (.IsAtLeast u V) = none)
    (h : IsAtLeast required api u V s = .ok (b, s1)) :
    (IsBeforeAppRequiredVersion required V = true ∧ b = true ∧
      s1 = s.store (.IsAtLeast u V) true) ∨
    (IsBeforeAppRequiredVersion required V = false ∧ handleAvailable api u s = true ∧
      b = (api.outcome (Call.IsAtLeast u V).query).value ∧
      s1 = (s.issued u (Call.IsAtLeast u V).query).store (.IsAtLeast u V) b) := by
  cases hb : IsBeforeAppRequiredVersion required V with
  | true =>
    rw [IsAtLeast_before hfirst hb] at h
    cases h
    exact Or.inl ⟨rfl, rfl, rfl⟩
  | false =>
    simp only [IsAtLeast, staticLocal, hfirst, hb, InternalGetIsApiContractPresent] at h
    split at h
    · cases h
    · rename_i v s0 hi
      cases h
      obtain ⟨hh, hv, hs⟩ := issue_of_ok hi
      subst hs
      exact Or.inr ⟨rfl, hh, hv, rfl⟩

/-- A call of `IsAtLeast` that returns has changed no initialised static, no static other
than its own, and has issued the call of no existence check; every unit that could fetch
the factory still can. -/
theorem IsAtLeast_effect {required : WindowsVersion} {api : ApiInformationStatics}
    {u : TranslationUnit} {V : WindowsVersion} {s s1 : State} {b : Bool}
    (h : IsAtLeast required api u V s = .ok (b, s1)) :
    (∀ d v, s.statics d = some v → s1.statics d = some v) ∧
    (∀ d, d ≠ .IsAtLeast u V → s1.statics d = s.statics d) ∧
    (∀ p : Probe, s1.log.count p.query = s.log.count p.query) ∧
    (∀ w, handleAvailable api w s = true → handleAvailable api w s1 = true) := by
  cases hc : s.statics (.IsAtLeast u V) with
  | some v =>
    rw [IsAtLeast_cached hc] at h
    cases h
    exact ⟨fun _ _ hd => hd, fun _ _ => rfl, fun _ => rfl, fun _ hw => hw⟩
  | none =>
    rcases IsAtLeast_of_ok hc h with ⟨-, -, rfl⟩ | ⟨-, -, -, rfl⟩
    · exact ⟨kept_store hc _, fun d hd => store_other _ _ hd, fun _ => rfl, fun _ hw => hw⟩
    · refine ⟨kept_store (s := s.issued u _) hc _, fun d hd => store_other _ _ hd,
        fun p => ?_, fun w hw => handleAvailable_issued u (Call.IsAtLeast u V).query hw⟩
      rw [store_log]
      exact issued_count_ne _ _ (p.query_ne_contract _ _)

/-- The value of a first call of `IsAtLeast`, when the unit's `ApiInformation()` can
return. -/
theorem IsAtLeast_first (required : WindowsVersion) {api : ApiInformationStatics}
    {u : TranslationUnit} {V : WindowsVersion} {s : State}
    (hfirst : s.statics (.IsAtLeast u V) = none) (hh : handleAvailable api u s = true) :
    ∃ s1, IsAtLeast required api u V s =
        .ok (IsBeforeAppRequiredVersion required V ||
          (api.outcome (Call.IsAtLeast u V).query).value, s1) := by
  cases hb : IsBeforeAppRequiredVersion required V with
  | true => exact ⟨_, IsAtLeast_before hfirst hb⟩
  | false =>
    exact ⟨(s.issued u (Call.IsAtLeast u V).query).store (.IsAtLeast u V)
        (api.outcome (Call.IsAtLeast u V).query).value,
      by simpa using IsAtLeast_query hfirst hb hh⟩

/-- `IsAtLeast` returns whenever the unit's `ApiInformation()` can, and `ApiInformation()`
still can afterwards. -/
theorem IsAtLeast_total (required : WindowsVersion) {api : ApiInformationStatics}
    (u : TranslationUnit) (V : WindowsVersion) {s : State}
    (hh : handleAvailable api u s = true) :
    ∃ b s1, IsAtLeast required api u V s = .ok (b, s1) ∧ handleAvailable api u s1 = true := by
  cases h : s.statics (.IsAtLeast u V) with
  | some v => exact ⟨v, s, IsAtLeast_cached h, hh⟩
  | none =>
    obtain ⟨s1, h1⟩ := IsAtLeast_first required h hh
    exact ⟨_, s1, h1, (IsAtLeast_effect h1).2.2.2 u hh⟩

theorem IsAtLeast_kept {required : WindowsVersion} {api : ApiInformationStatics}
    {u : TranslationUnit} {V : WindowsVersion} {s s1 : State} {b : Bool}
    (h : IsAtLeast required api u V s = .ok (b, s1)) (d : Call) (v : Bool)
    (hd : s.statics d = some v) : s1.statics d = some v :=
  (IsAtLeast_effect h).1 d v hd

theorem IsAtLeast_probes {required : WindowsVersion} {api : ApiInformationStatics}
    {u : TranslationUnit} {V : WindowsVersion} {s s1 : State} {b : Bool}
    (h : IsAtLeast required api u V s = .ok (b, s1)) (p : Probe) :
    s1.statics (.probe p) = s.statics (.probe p) :=
  (IsAtLeast_effect h).2.1 _ (by simp)

theorem IsAtLeast_counts {required : WindowsVersion} {api : ApiInformationStatics}
    {u : TranslationUnit} {V : WindowsVersion} {s s1 : State} {b : Bool}
    (h : IsAtLeast required api u V s = .ok (b, s1)) (p : Probe) :
    s1.log.count p.query = s.log.count p.query :=
  (IsAtLeast_effect h).2.2.1 p

/-! ## The initialiser of the existence checks -/

/-- The initialiser of an existence check, when it returns, took one of three paths. -/
theorem isPresentInit_of_ok {required : WindowsVersion} {api : ApiInformationStatics}
    {u : TranslationUnit} {V : WindowsVersion} {get : State → Run Bool} {s s0 : State}
    {v : Bool} (h : isPresentInit required api u V get s = .ok (v, s0)) :
    (V ≠ WindowsVersion.None ∧
      ∃ s1, IsAtLeast required api u V s = .ok (false, s1) ∧ v = false ∧ s0 = s1) ∨
    (V ≠ WindowsVersion.None ∧
      ∃ s1 s2, IsAtLeast required api u V s = .ok (true, s1) ∧
        IsAtLeast required api u (VersionAfter V) s1 = .ok (true, s2) ∧ v = true ∧ s0 = s2) ∨
    (∃ s2, (V = WindowsVersion.None ∧ s2 = s ∨
        V ≠ WindowsVersion.None ∧
          ∃ s1, IsAtLeast required api u V s = .ok (true, s1) ∧
            IsAtLeast required api u (VersionAfter V) s1 = .ok (false, s2)) ∧
      get s2 = .ok (v, s0)) := by
  by_cases hn : V = WindowsVersion.None
  · simp only [isPresentInit, CanAssumeApiIsNotPresentIfIntroducedIn,
      CanAssumeApiIsPresentIfIntroducedIn, hn, bne_self_eq_false, Bool.false_eq_true,
      if_false] at h
    exact Or.inr (Or.inr ⟨s, Or.inl ⟨hn, rfl⟩, h⟩)
  · have hne : (V != WindowsVersion.None) = true := by simpa using hn
    simp only [isPresentInit, CanAssumeApiIsNotPresentIfIntroducedIn,
      CanAssumeApiIsPresentIfIntroducedIn, hne, if_true] at h
    cases h1 : IsAtLeast required api u V s with
    | error e => simp [h1] at h
    | ok r =>
      obtain ⟨a, sa⟩ := r
      cases a with
      | false =>
        simp only [h1, Bool.not_false, Except.ok.injEq, Prod.mk.injEq] at h
        exact Or.inl ⟨hn, sa, rfl, h.1.symm, h.2.symm⟩
      | true =>
        simp only [h1, Bool.not_true] at h
        cases h2 : IsAtLeast required api u (VersionAfter V) sa with
        | error e => simp [h2] at h
        | ok r2 =>
          obtain ⟨a2, sb⟩ := r2
          cases a2 with
          | true =>
            simp only [h2, Except.ok.injEq, Prod.mk.injEq] at h
            exact Or.inr (Or.inl ⟨hn, sa, sb, rfl, h2, h.1.symm, h.2.symm⟩)
          | false =>
            simp only [h2] at h
            exact Or.inr (Or.inr ⟨sb, Or.inr ⟨hn, sa, rfl, h2⟩, h⟩)

/-- The initialiser returns whenever the unit's `ApiInformation()` can. -/
theorem isPresentInit_total (required : WindowsVersion) {api : ApiInformationStatics}
    (u : TranslationUnit) (V : WindowsVersion) (q : Query) {s : State}
    (hh : handleAvailable api u s = true) :
    ∃ v s0, isPresentInit required api u V (InternalGet api u q) s = .ok (v, s0) := by
  by_cases hn : V = WindowsVersion.None
  · exact ⟨(api.outcome q).value, s.issued u q,
      by simp [isPresentInit, CanAssumeApiIsNotPresentIfIntroducedIn,
        CanAssumeApiIsPresentIfIntroducedIn, hn, InternalGet_ok _ hh]⟩
  · have hne : (V != WindowsVersion.None) = true := by simpa using hn
    obtain ⟨a, s1, h1, hh1⟩ := IsAtLeast_total required u V hh
    cases a with
    | false =>
      exact ⟨false, s1,
        by simp [isPresentInit, CanAssumeApiIsNotPresentIfIntroducedIn, hne, h1]⟩
    | true =>
      obtain ⟨a2, s2, h2, hh2⟩ := IsAtLeast_total required u (VersionAfter V) hh1
      cases a2 with
      | true =>
        exact ⟨true, s2, by simp [isPresentInit, CanAssumeApiIsNotPresentIfIntroducedIn,
          CanAssumeApiIsPresentIfIntroducedIn, hne, h1, h2]⟩
      | false =>
        exact ⟨(api.outcome q).value, s2.issued u q,
          by simp [isPresentInit, CanAssumeApiIsNotPresentIfIntroducedIn,
            CanAssumeApiIsPresentIfIntroducedIn, hne, h1, h2, InternalGet_ok _ hh2]⟩

/-- The initialiser changes no initialised static and no static of an existence check, and
issues at most the fallback call, whose value it then returns. -/
theorem isPresentInit_effect {required : WindowsVersion} {api : ApiInformationStatics}
    {u : TranslationUnit} {V : WindowsVersion} {q : Query} {s s0 : State} {v : Bool}
    (h : isPresentInit required api u V (InternalGet api u q) s = .ok (v, s0)) :
    ∃ s2, (∀ d w, s.statics d = some w → s2.statics d = some w) ∧
      (∀ p : Probe, s2.statics (.probe p) = s.statics (.probe p)) ∧
      (∀ p : Probe, s2.log.count p.query = s.log.count p.query) ∧
      (s0 = s2 ∨ (v = (api.outcome q).value ∧ s0 = s2.issued u q)) := by
  rcases isPresentInit_of_ok h with ⟨-, s1, h1, -, rfl⟩ | ⟨-, s1, s2, h1, h2, -, rfl⟩ |
    ⟨s2, hcase, hget⟩
  · exact ⟨s0, IsAtLeast_kept h1, IsAtLeast_probes h1, IsAtLeast_counts h1, Or.inl rfl⟩
  · exact ⟨s0, fun d w hd => IsAtLeast_kept h2 d w (IsAtLeast_kept h1 d w hd),
      fun p => (IsAtLeast_probes h2 p).trans (IsAtLeast_probes h1 p),
      fun p => (IsAtLeast_counts h2 p).trans (IsAtLeast_counts h1 p), Or.inl rfl⟩
  · obtain ⟨-, hv, hs⟩ := InternalGet_of_ok hget
    refine ⟨s2, ?_, ?_, ?_, Or.inr ⟨hv, hs⟩⟩ <;>
      rcases hcase with ⟨-, rfl⟩ | ⟨-, s1, h1, h2⟩
    · exact fun _ _ hd => hd
    · exact fun d w hd => IsAtLeast_kept h2 d w (IsAtLeast_kept h1 d w hd)
    · exact fun _ => rfl
    · exact fun p => (IsAtLeast_probes h2 p).trans (IsAtLeast_probes h1 p)
    · exact fun _ => rfl
    · exact fun p => (IsAtLeast_counts h2 p).trans (IsAtLeast_counts h1 p)

/-- The three-way branch of a first call that returns. -/
theorem Probe.three_way (required : WindowsVersion) (api : ApiInformationStatics)
    (p : Probe) (s : State) (hfirst : s.statics (.probe p) = none) (b : Bool) (s' : State)
    (hrun : p.run required api s = .ok (b, s')) :
    (p.IntroducedIn ≠ WindowsVersion.None ∧
        ∃ s1, IsAtLeast required api p.unit p.IntroducedIn s = .ok (false, s1) ∧
          b = false ∧ s' = s1.store (.probe p) false ∧
          s'.log.count p.query = s.log.count p.query) ∨
    (p.IntroducedIn ≠ WindowsVersion.None ∧
        ∃ s1 s2, IsAtLeast required api p.unit p.IntroducedIn s = .ok (true, s1) ∧
          IsAtLeast required api p.unit (VersionAfter p.IntroducedIn) s1 = .ok (true, s2) ∧
          b = true ∧ s' = s2.store (.probe p) true ∧
          s'.log.count p.query = s.log.count p.query) ∨
    (∃ s2, (p.IntroducedIn = WindowsVersion.None ∧ s2 = s ∨
            p.IntroducedIn ≠ WindowsVersion.None ∧
              ∃ s1, IsAtLeast required api p.unit p.IntroducedIn s = .ok (true, s1) ∧
                IsAtLeast required api p.unit (VersionAfter p.IntroducedIn) s1 =
                  .ok (false, s2)) ∧
          b = (api.outcome p.query).value ∧
          s' = (s2.issued p.unit p.query).store (.probe p) b ∧
          s'.log.count p.query = s.log.count p.query + 1) := by
  rw [Probe.run_eq] at hrun
  obtain ⟨s0, hinit, rfl⟩ := staticLocal_of_ok hfirst hrun
  rcases isPresentInit_of_ok hinit with
    ⟨hn, s1, h1, rfl, rfl⟩ | ⟨hn, s1, s2, h1, h2, rfl, rfl⟩ | ⟨s2, hcase, hget⟩
  · exact Or.inl ⟨hn, s0, h1, rfl, rfl, by rw [store_log, IsAtLeast_counts h1]⟩
  · exact Or.inr (Or.inl ⟨hn, s1, s0, h1, h2, rfl, rfl,
      by rw [store_log, IsAtLeast_counts h2, IsAtLeast_counts h1]⟩)
  · obtain ⟨-, hv, rfl⟩ := InternalGet_of_ok hget
    refine Or.inr (Or.inr ⟨s2, hcase, hv, rfl, ?_⟩)
    rw [store_log, issued_count]
    rcases hcase with ⟨-, rfl⟩ | ⟨-, s1, h1, h2⟩
    · rfl
    · rw [IsAtLeast_counts h2, IsAtLeast_counts h1]

/-! ## One call of an instantiation -/

theorem Call.run_cached {required : WindowsVersion} {api : ApiInformationStatics} {c : Call}
    {s : State} {v : Bool} (h : s.statics c = some v) : c.run required api s = .ok (v, s) := by
  cases c with
  | IsAtLeast u V => exact IsAtLeast_cached h
  | probe p =>
    show p.run required api s = _
    rw [Probe.run_eq]
    exact staticLocal_cached h

/-- A call returns whenever the `ApiInformation()` of its unit can. -/
theorem Call.run_total (required : WindowsVersion) {api : ApiInformationStatics} (c : Call)
    {s : State} (hh : handleAvailable api c.unit s = true) :
    ∃ b s1, c.run required api s = .ok (b, s1) := by
  cases hc : s.statics c with
  | some v => exact ⟨v, s, Call.run_cached hc⟩
  | none =>
    cases c with
    | IsAtLeast u V =>
      obtain ⟨b, s1, h, -⟩ := IsAtLeast_total required u V hh
      exact ⟨b, s1, h⟩
    | probe p =>
      obtain ⟨v, s0, h⟩ := isPresentInit_total required p.unit p.IntroducedIn p.query hh
      refine ⟨v, s0.store (.probe p) v, ?_⟩
      show p.run required api s = _
      rw [Probe.run_eq]
      exact staticLocal_first hc h

/-- A first call that returns has set its own static to the returned value, changed no
initialised static and no static of another existence check, issued its own call either
not at all or once (returning then the value of the wrapper), and issued the call of no
other existence check. -/
theorem Call.run_of_ok {required : WindowsVersion} {api : ApiInformationStatics} {c : Call}
    {s s1 : State} {b : Bool} (hfirst : s.statics c = none)
    (h : c.run required api s = .ok (b, s1)) :
    s1.statics c = some b ∧
      (∀ d v, s.statics d = some v → s1.statics d = some v) ∧
      (s1.log.count c.query = s.log.count c.query ∨
        (s1.log.count c.query = s.log.count c.query + 1 ∧
          b = (api.outcome c.query).value)) ∧
      (∀ p : Probe, p.query ≠ c.query → s1.log.count p.query = s.log.count p.query) ∧
      (∀ d : Probe, Call.probe d ≠ c → s1.statics (.probe d) = s.statics (.probe d)) := by
  cases c with
  | IsAtLeast u V =>
    refine ⟨?_, IsAtLeast_kept h, ?_, fun p _ => IsAtLeast_counts h p,
      fun d _ => IsAtLeast_probes h d⟩
    · rcases IsAtLeast_of_ok hfirst h with ⟨-, rfl, rfl⟩ | ⟨-, -, -, rfl⟩ <;>
        exact store_same _ _ _
    · rcases IsAtLeast_of_ok hfirst h with ⟨-, -, rfl⟩ | ⟨-, -, hv, rfl⟩
      · exact Or.inl rfl
      · exact Or.inr ⟨by rw [store_log, issued_count], hv⟩
  | probe p =>
    change p.run required api s = _ at h
    rw [Probe.run_eq] at h
    obtain ⟨s0, hinit, rfl⟩ := staticLocal_of_ok hfirst h
    obtain ⟨s2, hkept, hprobes, hcounts, hs0⟩ := isPresentInit_effect hinit
    have hnone : s2.statics (.probe p) = none := (hprobes p).trans hfirst
    rcases hs0 with rfl | ⟨hv, rfl⟩
    · exact ⟨store_same _ _ _, fun d v hd => kept_store hnone _ d v (hkept d v hd),
        Or.inl (by rw [store_log]; exact hcounts p),
        fun r _ => by rw [store_log]; exact hcounts r,
        fun d hd => by rw [store_other _ _ hd]; exact hprobes d⟩
    · refine ⟨store_same _ _ _,
        fun d v hd => kept_store (s := s2.issued p.unit _) hnone _ d v (hkept d v hd),
        Or.inr ⟨?_, hv⟩, fun r hr => ?_, fun d hd => ?_⟩
      · rw [store_log]
        show (s2.issued p.unit p.query).log.count p.query = _
        rw [issued_count, hcounts p]
        rfl
      · rw [store_log, issued_count_ne (q := p.query) _ _ hr, hcounts r]
      · rw [store_other _ _ hd]
        exact hprobes d

/-! ## Sequences of calls -/

theorem runCalls_cons_ok {required : WindowsVersion} {c : Call} {api : ApiInformationStatics}
    {rest : List (Call × ApiInformationStatics)} {s s1 s2 : State} {b : Bool} {bs : List Bool}
    (h : c.run required api s = .ok (b, s1)) (hrest : runCalls required rest s1 = .ok (bs, s2)) :
    runCalls required ((c, api) :: rest) s = .ok (b :: bs, s2) := by
  simp [runCalls, h, hrest]

theorem runCalls_cached (required : WindowsVersion) {c : Call} {s : State} {b : Bool}
    (h : s.statics c = some b) (later : List ApiInformationStatics) :
    runCalls required (later.map fun a => (c, a)) s =
      .ok (List.replicate later.length b, s) := by
  induction later with
  | nil => rfl
  | cons a rest ih => simp [runCalls, Call.run_cached h, ih, List.replicate_succ]

theorem runCalls_length (required : WindowsVersion)
    (calls : List (Call × ApiInformationStatics)) :
    ∀ (s s' : State) (bs : List Bool), runCalls required calls s = .ok (bs, s') →
      bs.length = calls.length := by
  induction calls with
  | nil =>
    intro s s' bs h
    simp only [runCalls, Except.ok.injEq, Prod.mk.injEq] at h
    simp [← h.1]
  | cons x rest ih =>
    obtain ⟨c, api⟩ := x
    intro s s' bs h
    simp only [runCalls] at h
    split at h
    · cases h
    · split at h
      · cases h
      · rename_i hrest
        simp only [Except.ok.injEq, Prod.mk.injEq] at h
        simp [← h.1, ih _ _ _ hrest]

/-- Over any sequence of calls made while the factory can be fetched: the run returns one
value per call; no initialised static changes; each returned value is what the static of
its instantiation holds afterwards; the static of an existence check that is not called
stays as it was; and the call of an existence check is issued at most once for each
distinct not yet initialised instantiation in the sequence that falls back to it. -/
theorem runCalls_bound (required : WindowsVersion)
    (calls : List (Call × ApiInformationStatics)) :
    ∀ s : State, (∀ x ∈ calls, SUCCEEDED x.2.GetActivationFactory = true) →
    ∃ bs s', runCalls required calls s = .ok (bs, s') ∧
      (∀ d v, s.statics d = some v → s'.statics d = some v) ∧
      (∀ x ∈ List.zip (calls.map Prod.fst) bs, s'.statics x.1 = some x.2) ∧
      (∀ d : Probe, Call.probe d ∉ calls.map Prod.fst →
        s'.statics (.probe d) = s.statics (.probe d)) ∧
      (∀ p : Probe, s'.log.count p.query ≤ s.log.count p.query +
        ((calls.map Prod.fst).toFinset.filter
          (fun c => c.query = p.query ∧ s.statics c = none)).card) := by
  induction calls with
  | nil =>
    intro s _
    exact ⟨[], s, rfl, fun _ _ h => h, by simp, fun _ _ => rfl, by simp⟩
  | cons x rest ih =>
    obtain ⟨c, api⟩ := x
    intro s hall
    have hrest : ∀ x ∈ rest, SUCCEEDED x.2.GetActivationFactory = true :=
      fun x hx => hall x (List.mem_cons_of_mem _ hx)
    have hh : handleAvailable api c.unit s = true := by
      have := hall (c, api) (List.mem_cons_self _ _)
      simp [handleAvailable, this]
    cases hc : s.statics c with
    | some v =>
      obtain ⟨bs, s', hrun, hkept, hzip, hsep, hcount⟩ := ih s hrest
      refine ⟨v :: bs, s', runCalls_cons_ok (Call.run_cached hc) hrun, hkept, ?_,
        fun d hd => hsep d (fun hmem => hd (by simp [hmem])), fun p => ?_⟩
      · intro y hy
        simp only [List.map_cons, List.zip_cons_cons, List.mem_cons] at hy
        rcases hy with rfl | hy
        · exact hkept c v hc
        · exact hzip y hy
      · refine (hcount p).trans (Nat.add_le_add_left (Finset.card_le_card ?_) _)
        intro d hd
        simp only [Finset.mem_filter, List.mem_toFinset, List.map_cons, List.mem_cons] at hd ⊢
        exact ⟨Or.inr hd.1, hd.2⟩
    | none =>
      obtain ⟨b, s1, hrun1⟩ := Call.run_total required c hh
      obtain ⟨hfilled, hkept1, hcnt, hother, hsep1⟩ := Call.run_of_ok hc hrun1
      have hcount1 : s1.log.count c.query ≤ s.log.count c.query + 1 := by
        rcases hcnt with h | ⟨h, -⟩ <;> omega
      obtain ⟨bs, s', hrun, hkept, hzip, hsep, hcount⟩ := ih s1 hrest
      refine ⟨b :: bs, s', runCalls_cons_ok hrun1 hrun,
        fun d v hd => hkept d v (hkept1 d v hd), ?_, fun d hd => ?_, fun p => ?_⟩
      · intro y hy
        simp only [List.map_cons, List.zip_cons_cons, List.mem_cons] at hy
        rcases hy with rfl | hy
        · exact hkept c b hfilled
        · exact hzip y hy
      · rw [hsep d (fun hmem => hd (by simp [hmem])),
          hsep1 d (fun heq => hd (by simp [heq]))]
      · have hnone : ∀ d, s1.statics d = none → s.statics d = none := by
          intro d hd
          cases hsd : s.statics d with
          | none => rfl
          | some v => rw [hkept1 d v hsd] at hd; cases hd
        by_cases hq : p.query = c.query
        · have hsub : ((rest.map Prod.fst).toFinset.filter
              (fun d => d.query = p.query ∧ s1.statics d = none)) ⊆
              ((((c, api) :: rest).map Prod.fst).toFinset.filter
                (fun d => d.query = p.query ∧ s.statics d = none)).erase c := by
            intro d hd
            simp only [Finset.mem_filter, List.mem_toFinset, List.map_cons, List.mem_cons,
              Finset.mem_erase] at hd ⊢
            refine ⟨?_, Or.inr hd.1, hd.2.1, hnone d hd.2.2⟩
            rintro rfl
            rw [hfilled] at hd
            exact absurd hd.2.2 (by simp)
          have hmem : c ∈ ((((c, api) :: rest).map Prod.fst).toFinset.filter
              (fun d => d.query = p.query ∧ s.statics d = none)) := by
            simp [hq, hc]
          have h1 := Finset.card_le_card hsub
          rw [Finset.card_erase_of_mem hmem] at h1
          have h2 := Finset.card_pos.mpr ⟨c, hmem⟩
          have h3 := hcount p
          rw [← hq] at hcount1
          omega
        · have hsub : ((rest.map Prod.fst).toFinset.filter
              (fun d => d.query = p.query ∧ s1.statics d = none)) ⊆
              ((((c, api) :: rest).map Prod.fst).toFinset.filter
                (fun d => d.query = p.query ∧ s.statics d = none)) := by
            intro d hd
            simp only [Finset.mem_filter, List.mem_toFinset, List.map_cons,
              List.mem_cons] at hd ⊢
            exact ⟨Or.inr hd.1, hd.2.1, hnone d hd.2.2⟩
          have h1 := Finset.card_le_card hsub
          have h3 := hcount p
          rw [hother p hq] at h3
          omega

/-- Two first calls of `IsAtLeast` for distinct versions on one platform, from any two
translation units. -/
theorem runCalls_IsAtLeast_pair (required : WindowsVersion) {api : ApiInformationStatics}
    {ua ub : TranslationUnit} {va vb : WindowsVersion} {s : State} (hne : va ≠ vb)
    (hfa : s.statics (.IsAtLeast ua va) = none) (hfb : s.statics (.IsAtLeast ub vb) = none)
    (hha : handleAvailable api ua s = true) (hhb : handleAvailable api ub s = true) :
    ∃ s', runCalls required [(.IsAtLeast ua va, api), (.IsAtLeast ub vb, api)] s =
      .ok ([IsBeforeAppRequiredVersion required va ||
              (api.outcome (Call.IsAtLeast ua va).query).value,
            IsBeforeAppRequiredVersion required vb ||
              (api.outcome (Call.IsAtLeast ub vb).query).value], s') := by
  obtain ⟨s1, h1⟩ := IsAtLeast_first required hfa hha
  have hkeep : s1.statics (.IsAtLeast ub vb) = none :=
    ((IsAtLeast_effect h1).2.1 _ (by simp [Ne.symm hne])).trans hfb
  obtain ⟨s2, h2⟩ := IsAtLeast_first required hkeep ((IsAtLeast_effect h1).2.2.2 ub hhb)
  exact ⟨s2, runCalls_cons_ok (c := .IsAtLeast ua va) h1
    (runCalls_cons_ok (c := .IsAtLeast ub vb) h2 rfl)⟩

/-! ## The required version -/

theorem BaselineCoherent.initial (required : WindowsVersion) :
    BaselineCoherent required State.initial :=
  ⟨fun _ _ _ => by simp [State.initial], fun _ _ _ => by simp [State.initial]⟩

theorem BaselineCoherent.of_statics {required : WindowsVersion} {s s1 : State}
    (h : BaselineCoherent required s) (he : s1.statics = s.statics) :
    BaselineCoherent required s1 := by
  unfold BaselineCoherent
  rw [he]
  exact h

theorem BaselineCoherent.store_IsAtLeast {required : WindowsVersion} {s : State}
    (h : BaselineCoherent required s) (u : TranslationUnit) (V : WindowsVersion) (b : Bool)
    (hb : IsBeforeAppRequiredVersion required V = true → b = true) :
    BaselineCoherent required (s.store (.IsAtLeast u V) b) := by
  refine ⟨fun w W hW => ?_, fun p h1 h2 => ?_⟩
  · by_cases hWV : Call.IsAtLeast w W = Call.IsAtLeast u V
    · have hV : W = V := by
        injection hWV
      rw [hWV, store_same, hb (hV ▸ hW)]
      simp
    · rw [store_other _ _ hWV]
      exact h.1 w W hW
  · rw [store_other _ _ (by simp)]
    exact h.2 p h1 h2

theorem BaselineCoherent.store_probe {required : WindowsVersion} {s : State}
    (h : BaselineCoherent required s) (p : Probe) (b : Bool)
    (hb : IsBeforeAppRequiredVersion required p.IntroducedIn = true →
      IsBeforeAppRequiredVersion required (VersionAfter p.IntroducedIn) = true → b = true) :
    BaselineCoherent required (s.store (.probe p) b) := by
  refine ⟨fun w W hW => ?_, fun r h1 h2 => ?_⟩
  · rw [store_other _ _ (by simp)]
    exact h.1 w W hW
  · by_cases hrp : r = p
    · subst hrp
      rw [store_same, hb h1 h2]
      simp
    · rw [store_other _ _ (by simpa using hrp)]
      exact h.2 r h1 h2

theorem InternalGet_statics {api : ApiInformationStatics} {u : TranslationUnit} {q : Query}
    {s s1 : State} {b : Bool} (h : InternalGet api u q s = .ok (b, s1)) :
    s1.statics = s.statics := by
  rw [(InternalGet_of_ok h).2.2]
  rfl

theorem IsAtLeast_coherent {required : WindowsVersion} {api : ApiInformationStatics}
    {u : TranslationUnit} {V : WindowsVersion} {s s1 : State} {b : Bool}
    (hco : BaselineCoherent required s)
    (h : IsAtLeast required api u V s = .ok (b, s1)) :
    BaselineCoherent required s1 ∧
      (IsBeforeAppRequiredVersion required V = true → b = true) := by
  cases hc : s.statics (.IsAtLeast u V) with
  | some v =>
    rw [IsAtLeast_cached hc] at h
    cases h
    refine ⟨hco, fun hb => ?_⟩
    have := hco.1 u V hb
    rw [hc] at this
    cases b <;> simp_all
  | none =>
    cases hb : IsBeforeAppRequiredVersion required V with
    | true =>
      rw [IsAtLeast_before hc hb] at h
      cases h
      exact ⟨hco.store_IsAtLeast u V true fun _ => rfl, fun _ => rfl⟩
    | false =>
      rcases IsAtLeast_of_ok hc h with ⟨hb', -, -⟩ | ⟨-, -, -, rfl⟩
      · rw [hb] at hb'
        cases hb'
      · have hissued : BaselineCoherent required (s.issued u (Call.IsAtLeast u V).query) :=
          hco.of_statics rfl
        exact ⟨hissued.store_IsAtLeast u V b (by simp [hb]), by simp [hb]⟩

theorem IsAtLeast_of_before {required : WindowsVersion} (api : ApiInformationStatics)
    (u : TranslationUnit)
    {V : WindowsVersion} {s : State} (hco : BaselineCoherent required s)
    (hb : IsBeforeAppRequiredVersion required V = true) :
    ∃ s1, IsAtLeast required api u V s = .ok (true, s1) ∧ s1.log = s.log ∧
      s1.s_spApiInformationStatics = s.s_spApiInformationStatics ∧
      (∀ p : Probe, s1.statics (.probe p) = s.statics (.probe p)) ∧
      BaselineCoherent required s1 := by
  cases hc : s.statics (.IsAtLeast u V) with
  | some v =>
    have hv : v = true := by
      have := hco.1 u V hb
      rw [hc] at this
      cases v <;> simp_all
    subst hv
    exact ⟨s, IsAtLeast_cached hc, rfl, rfl, fun _ => rfl, hco⟩
  | none =>
    exact ⟨_, IsAtLeast_before hc hb, rfl, rfl, fun p => store_other _ _ (by simp),
      hco.store_IsAtLeast u V true fun _ => rfl⟩

theorem isPresentInit_coherent {required : WindowsVersion} {api : ApiInformationStatics}
    {u : TranslationUnit} {V : WindowsVersion} {q : Query} {s s0 : State} {v : Bool}
    (hco : BaselineCoherent required s)
    (h : isPresentInit required api u V (InternalGet api u q) s = .ok (v, s0)) :
    BaselineCoherent required s0 ∧
      (IsBeforeAppRequiredVersion required V = true →
        IsBeforeAppRequiredVersion required (VersionAfter V) = true → v = true) := by
  rcases isPresentInit_of_ok h with ⟨-, s1, h1, rfl, rfl⟩ | ⟨-, s1, s2, h1, h2, rfl, rfl⟩ |
    ⟨s2, hcase, hget⟩
  · exact ⟨(IsAtLeast_coherent hco h1).1, fun hb _ => (IsAtLeast_coherent hco h1).2 hb⟩
  · exact ⟨(IsAtLeast_coherent (IsAtLeast_coherent hco h1).1 h2).1, fun _ _ => rfl⟩
  · rcases hcase with ⟨hn, rfl⟩ | ⟨-, s1, h1, h2⟩
    · refine ⟨hco.of_statics (InternalGet_statics hget), fun hb => ?_⟩
      simp [IsBeforeAppRequiredVersion, hn] at hb
    · have hco2 := IsAtLeast_coherent (IsAtLeast_coherent hco h1).1 h2
      exact ⟨hco2.1.of_statics (InternalGet_statics hget),
        fun _ hb => absurd (hco2.2 hb) (by simp)⟩

theorem Call.run_coherent {required : WindowsVersion} {api : ApiInformationStatics}
    {c : Call} {s s1 : State} {b : Bool} (hco : BaselineCoherent required s)
    (h : c.run required api s = .ok (b, s1)) : BaselineCoherent required s1 := by
  cases c with
  | IsAtLeast u V => exact (IsAtLeast_coherent hco h).1
  | probe p =>
    cases hc : s.statics (.probe p) with
    | some v =>
      rw [Call.run_cached hc] at h
      cases h
      exact hco
    | none =>
      change p.run required api s = _ at h
      rw [Probe.run_eq] at h
      obtain ⟨s0, hinit, rfl⟩ := staticLocal_of_ok hc h
      obtain ⟨hc0, hv⟩ := isPresentInit_coherent hco hinit
      exact hc0.store_probe p b hv

theorem runCalls_coherent (required : WindowsVersion)
    (calls : List (Call × ApiInformationStatics)) :
    ∀ (s s' : State) (bs : List Bool), BaselineCoherent required s →
      runCalls required calls s = .ok (bs, s') → BaselineCoherent required s' := by
  induction calls with
  | nil =>
    intro s s' bs hco h
    simp only [runCalls, Except.ok.injEq, Prod.mk.injEq] at h
    rw [← h.2]
    exact hco
  | cons x rest ih =>
    obtain ⟨c, api⟩ := x
    intro s s' bs hco h
    simp only [runCalls] at h
    split at h
    · cases h
    · rename_i b s1 h1
      split at h
      · cases h
      · rename_i bs1 s2 hrest
        cases h
        exact ih _ _ _ (Call.run_coherent hco h1) hrest

/-! ## The three-way branch (C1) -/

/-- C1. Take any of the five existence checks on first use, in any translation unit, with
any `IntroducedIn` and any platform.  The call returns whenever the unit's
`ApiInformation()` can return, and whenever it returns its value is the three-way branch:
`false` if `IntroducedIn != None` and `IsAtLeast<IntroducedIn>()` is false; otherwise `true`
if `IntroducedIn != None` and `IsAtLeast<VersionAfter(IntroducedIn)>()` is true; otherwise
the value of the `InternalGetIs...` wrapper of the check.  The call of the check is issued
in the third case only, and there once. -/
theorem C1_three_way_branch (required : WindowsVersion) (api : ApiInformationStatics)
    (p : Probe) (s : State) (hfirst : s.statics (.probe p) = none) :
    (handleAvailable api p.unit s = true → ∃ b s', p.run required api s = .ok (b, s')) ∧
    ∀ b s', p.run required api s = .ok (b, s') →
      (p.IntroducedIn ≠ WindowsVersion.None ∧
          ∃ s1, IsAtLeast required api p.unit p.IntroducedIn s = .ok (false, s1) ∧
            b = false ∧ s' = s1.store (.probe p) false ∧
            s'.log.count p.query = s.log.count p.query) ∨
      (p.IntroducedIn ≠ WindowsVersion.None ∧
          ∃ s1 s2, IsAtLeast required api p.unit p.IntroducedIn s = .ok (true, s1) ∧
            IsAtLeast required api p.unit (VersionAfter p.IntroducedIn) s1 =
              .ok (true, s2) ∧
            b = true ∧ s' = s2.store (.probe p) true ∧
            s'.log.count p.query = s.log.count p.query) ∨
      (∃ s2, (p.IntroducedIn = WindowsVersion.None ∧ s2 = s ∨
              p.IntroducedIn ≠ WindowsVersion.None ∧
                ∃ s1, IsAtLeast required api p.unit p.IntroducedIn s = .ok (true, s1) ∧
                  IsAtLeast required api p.unit (VersionAfter p.IntroducedIn) s1 =
                    .ok (false, s2)) ∧
            b = (api.outcome p.query).value ∧
            s' = (s2.issued p.unit p.query).store (.probe p) b ∧
            s'.log.count p.query = s.log.count p.query + 1) :=
  ⟨fun hh => Call.run_total required (.probe p) hh, Probe.three_way required api p s hfirst⟩

/-- C1 for `IsTypePresent<C, RS3>` of `ApiCheck.cpp` on a build of exactly `RS3`, nothing
initialised: the call returns, and its value and final state are those of one of the three
cases. -/
theorem C1_three_way_branch_witness :
    State.initial.statics (.probe (typeC WindowsVersion.RS3)) = none ∧
    handleAvailable (runningExactly 5) ApiCheck_cpp State.initial = true ∧
    ∃ b s', (typeC WindowsVersion.RS3).run RequiredVersion (runningExactly 5)
        State.initial = .ok (b, s') ∧
      ((WindowsVersion.RS3 ≠ WindowsVersion.None ∧
          ∃ s1, IsAtLeast RequiredVersion (runningExactly 5) ApiCheck_cpp WindowsVersion.RS3
              State.initial = .ok (false, s1) ∧
            b = false ∧
            s' = s1.store (.probe (typeC WindowsVersion.RS3)) false ∧
            s'.log.count (.IsTypePresent "C") = State.initial.log.count (.IsTypePresent "C")) ∨
       (WindowsVersion.RS3 ≠ WindowsVersion.None ∧
          ∃ s1 s2, IsAtLeast RequiredVersion (runningExactly 5) ApiCheck_cpp
              WindowsVersion.RS3 State.initial = .ok (true, s1) ∧
            IsAtLeast RequiredVersion (runningExactly 5) ApiCheck_cpp
              (VersionAfter WindowsVersion.RS3) s1 = .ok (true, s2) ∧
            b = true ∧
            s' = s2.store (.probe (typeC WindowsVersion.RS3)) true ∧
            s'.log.count (.IsTypePresent "C") = State.initial.log.count (.IsTypePresent "C")) ∨
       (∃ s2, (WindowsVersion.RS3 = WindowsVersion.None ∧ s2 = State.initial ∨
              WindowsVersion.RS3 ≠ WindowsVersion.None ∧
                ∃ s1, IsAtLeast RequiredVersion (runningExactly 5) ApiCheck_cpp
                    WindowsVersion.RS3 State.initial = .ok (true, s1) ∧
                  IsAtLeast RequiredVersion (runningExactly 5) ApiCheck_cpp
                    (VersionAfter WindowsVersion.RS3) s1 = .ok (false, s2)) ∧
            b = ((runningExactly 5).outcome (.IsTypePresent "C")).value ∧
            s' = (s2.issued ApiCheck_cpp (.IsTypePresent "C")).store
              (.probe (typeC WindowsVersion.RS3)) b ∧
            s'.log.count (.IsTypePresent "C") =
              State.initial.log.count (.IsTypePresent "C") + 1)) := by
  have h := C1_three_way_branch RequiredVersion (runningExactly 5)
    (typeC WindowsVersion.RS3) State.initial rfl
  obtain ⟨b, s', hrun⟩ := h.1 (by decide)
  exact ⟨rfl, by decide, b, s', hrun, h.2 b s' hrun⟩

/-! ## The required version (C2) -/

/-- C2, as the code has it.  In any state reached from the initial one by a sequence of
calls that returned, an existence check whose `IntroducedIn` and whose
`VersionAfter(IntroducedIn)` are both versions other than `None` strictly below the
required version returns `true`, issues no call and does not fetch the factory, whatever
the platform would answer. -/
theorem C2_baseline_short_circuit (required : WindowsVersion)
    (calls : List (Call × ApiInformationStatics)) (bs : List Bool) (s : State)
    (hreach : runCalls required calls State.initial = .ok (bs, s))
    (p : Probe) (api : ApiInformationStatics)
    (hn : p.IntroducedIn ≠ WindowsVersion.None) (hlt : p.IntroducedIn.raw < required.raw)
    (hn2 : VersionAfter p.IntroducedIn ≠ WindowsVersion.None)
    (hlt2 : (VersionAfter p.IntroducedIn).raw < required.raw) :
    ∃ s', p.run required api s = .ok (true, s') ∧ s'.log = s.log ∧
      s'.s_spApiInformationStatics = s.s_spApiInformationStatics := by
  have hco := runCalls_coherent required calls _ _ _ (BaselineCoherent.initial required) hreach
  have hb1 : IsBeforeAppRequiredVersion required p.IntroducedIn = true := by
    simp [IsBeforeAppRequiredVersion, hn, hlt]
  have hb2 : IsBeforeAppRequiredVersion required (VersionAfter p.IntroducedIn) = true := by
    simp [IsBeforeAppRequiredVersion, hn2, hlt2]
  cases hc : s.statics (.probe p) with
  | some v =>
    have hv : v = true := by
      have := hco.2 p hb1 hb2
      rw [hc] at this
      cases v <;> simp_all
    subst hv
    exact ⟨s, Call.run_cached (c := .probe p) hc, rfl, rfl⟩
  | none =>
    obtain ⟨s1, h1, hl1, hf1, -, hco1⟩ := IsAtLeast_of_before api p.unit hco hb1
    obtain ⟨s2, h2, hl2, hf2, -, -⟩ := IsAtLeast_of_before api p.unit hco1 hb2
    have hne : (p.IntroducedIn != WindowsVersion.None) = true := by simpa using hn
    refine ⟨s2.store (.probe p) true, ?_, by rw [store_log, hl2, hl1], ?_⟩
    · rw [Probe.run_eq]
      refine staticLocal_first hc ?_
      simp [isPresentInit, CanAssumeApiIsNotPresentIfIntroducedIn,
        CanAssumeApiIsPresentIfIntroducedIn, hne, h1, h2]
    · show s2.s_spApiInformationStatics = _
      rw [hf2, hf1]

/-- C2 as amended, for `IsTypePresent<C, TH1>` under a required version of `RS3`, in the
state a call of `IsAtLeast<RS4>` on a build of exactly `RS3` leaves, on a platform where
the factory cannot be fetched and every call would fail. -/
theorem C2_baseline_short_circuit_witness :
    runCalls WindowsVersion.RS3
      [(.IsAtLeast ApiCheck_cpp WindowsVersion.RS4, runningExactly 5)] State.initial =
      .ok ([false], ((State.initial.issued ApiCheck_cpp
        (Call.IsAtLeast ApiCheck_cpp WindowsVersion.RS4).query).store
          (.IsAtLeast ApiCheck_cpp WindowsVersion.RS4) false)) ∧
    WindowsVersion.TH1 ≠ WindowsVersion.None ∧
    WindowsVersion.TH1.raw < WindowsVersion.RS3.raw ∧
    VersionAfter WindowsVersion.TH1 ≠ WindowsVersion.None ∧
    (VersionAfter WindowsVersion.TH1).raw < WindowsVersion.RS3.raw ∧
    ∃ s', (typeC WindowsVersion.TH1).run WindowsVersion.RS3 deadPlatform
        ((State.initial.issued ApiCheck_cpp
          (Call.IsAtLeast ApiCheck_cpp WindowsVersion.RS4).query).store
            (.IsAtLeast ApiCheck_cpp WindowsVersion.RS4) false) = .ok (true, s') ∧
      s'.log = [(Call.IsAtLeast ApiCheck_cpp WindowsVersion.RS4).query] ∧
      s'.s_spApiInformationStatics =
        (State.initial.holdFactory ApiCheck_cpp).s_spApiInformationStatics :=
  ⟨rfl, by decide, by decide, by decide, by decide,
    C2_baseline_short_circuit WindowsVersion.RS3
      [(.IsAtLeast ApiCheck_cpp WindowsVersion.RS4, runningExactly 5)] [false] _ rfl
      (typeC WindowsVersion.TH1) deadPlatform (by decide) (by decide)
      (by decide) (by decide)⟩

/-- C2 as stated fails under the shipped required version `TH1`.  `IsTypePresent<C, TH1>`
has `IntroducedIn` equal to the required version, yet on a platform that fails every call
it issues the contract-version call for major version 1 and returns `false`; on a build of
exactly `TH1` it returns `true` only after three calls. -/
theorem C2_counterexample :
    WindowsVersion.TH1 ≠ WindowsVersion.None ∧
    WindowsVersion.TH1.raw ≤ RequiredVersion.raw ∧
    observe (IsTypePresent RequiredVersion failingPlatform ApiCheck_cpp arrayC
      WindowsVersion.TH1 State.initial) =
      some (false, [.IsApiContractPresentByMajor "Windows.Foundation.UniversalApiContract" 1]) ∧
    observe (IsTypePresent RequiredVersion (runningExactly 1) ApiCheck_cpp arrayC
      WindowsVersion.TH1 State.initial) =
      some (true, [.IsApiContractPresentByMajor "Windows.Foundation.UniversalApiContract" 1,
        .IsApiContractPresentByMajor "Windows.Foundation.UniversalApiContract" 2,
        .IsTypePresent "C"]) := by
  decide

/-! ## Identity of the statics (C3) -/

/-- A call changes the static of no existence check other than the one called. -/
theorem Call.run_separate {required : WindowsVersion} {api : ApiInformationStatics}
    {c : Call} {s s1 : State} {b : Bool} (h : c.run required api s = .ok (b, s1))
    (d : Probe) (hd : Call.probe d ≠ c) : s1.statics (.probe d) = s.statics (.probe d) := by
  cases hc : s.statics c with
  | some v =>
    rw [Call.run_cached hc] at h
    cases h
    rfl
  | none => exact (Call.run_of_ok hc h).2.2.2.2 d hd

/-- C3, as the code has it.  The static of an existence check belongs to the instantiation:
translation unit, kind, name array object(s) and `IntroducedIn`.  Over any sequence of calls
from the initial state, made while the factory can be fetched: the run returns one value
per call; the static of every called instantiation holds the value its calls returned, so
two calls of the same instantiation return the same value; the static of an existence
check that was not called is still uninitialised, whatever was called with the same kind
and names; and the call of an existence check is issued at most once per distinct
instantiation in the sequence that falls back to it.  In any state, a call changes the
static of no existence check other than the one called. -/
theorem C3_identity_per_instantiation (required : WindowsVersion)
    (calls : List (Call × ApiInformationStatics))
    (hall : ∀ x ∈ calls, SUCCEEDED x.2.GetActivationFactory = true) :
    (∃ bs s', runCalls required calls State.initial = .ok (bs, s') ∧
      bs.length = calls.length ∧
      (∀ x ∈ List.zip (calls.map Prod.fst) bs, s'.statics x.1 = some x.2) ∧
      (∀ c b b', (c, b) ∈ List.zip (calls.map Prod.fst) bs →
        (c, b') ∈ List.zip (calls.map Prod.fst) bs → b = b') ∧
      (∀ d : Probe, Call.probe d ∉ calls.map Prod.fst → s'.statics (.probe d) = none) ∧
      (∀ p : Probe, s'.log.count p.query ≤
        ((calls.map Prod.fst).toFinset.filter (fun c => c.query = p.query)).card)) ∧
    (∀ (c : Call) (api : ApiInformationStatics) (s s1 : State) (b : Bool),
      c.run required api s = .ok (b, s1) →
      ∀ d : Probe, Call.probe d ≠ c → s1.statics (.probe d) = s.statics (.probe d)) := by
  obtain ⟨bs, s', hrun, -, hzip, hsep, hcount⟩ :=
    runCalls_bound required calls State.initial hall
  refine ⟨⟨bs, s', hrun, runCalls_length required calls _ _ _ hrun, hzip,
    fun c b b' h1 h2 => ?_, fun d hd => hsep d hd, fun p => ?_⟩,
    fun c api s s1 b h d hd => Call.run_separate h d hd⟩
  · have e1 := hzip _ h1
    have e2 := hzip _ h2
    simp only at e1 e2
    rw [e1] at e2
    exact Option.some.inj e2
  · have h := hcount p
    simpa [State.initial] using h

/-- C3 as amended, on the two instantiations of the counterexample: both statics get
initialised, the call `IsTypePresent("C")` is issued at most twice, and the static of
`IsTypePresent<C, RS3>` of `Program.cpp`, which was not called, is still uninitialised. -/
theorem C3_identity_per_instantiation_witness :
    (∀ x ∈ sameNameCalls (runningExactly 5), SUCCEEDED x.2.GetActivationFactory = true) ∧
    ∃ bs s', runCalls RequiredVersion (sameNameCalls (runningExactly 5)) State.initial =
        .ok (bs, s') ∧
      bs.length = (sameNameCalls (runningExactly 5)).length ∧
      s'.statics (.probe (.IsTypePresent Program_cpp arrayC WindowsVersion.RS3)) = none ∧
      s'.log.count (typeC WindowsVersion.RS3).query ≤ 2 := by
  have hall : ∀ x ∈ sameNameCalls (runningExactly 5),
      SUCCEEDED x.2.GetActivationFactory = true := by
    simp [sameNameCalls, runningExactly, platform, SUCCEEDED]
  obtain ⟨bs, s', hrun, hlen, -, -, hsep, hcount⟩ :=
    (C3_identity_per_instantiation RequiredVersion (sameNameCalls (runningExactly 5)) hall).1
  exact ⟨hall, bs, s', hrun, hlen, hsep _ (by decide),
    (hcount (typeC WindowsVersion.RS3)).trans (by decide)⟩

/-- C3 as stated fails.  `IsTypePresent<C, RS3>` and `IsTypePresent<C, None>` of one
translation unit have the same kind and the same name array; called one after the other on
a build of exactly `RS3` they issue `IsTypePresent("C")` twice, and on a build of exactly
`RS2` that has the type they return different values. -/
theorem C3_counterexample :
    (typeC WindowsVersion.RS3).query = (typeC WindowsVersion.None).query ∧
    observe (runCalls RequiredVersion (sameNameCalls (runningExactly 5)) State.initial) =
      some ([true, true],
        [.IsApiContractPresentByMajor "Windows.Foundation.UniversalApiContract" 5,
         .IsApiContractPresentByMajor "Windows.Foundation.UniversalApiContract" 6,
         .IsTypePresent "C", .IsTypePresent "C"]) ∧
    observe (runCalls RequiredVersion (sameNameCalls (runningExactly 4)) State.initial) =
      some ([false, true],
        [.IsApiContractPresentByMajor "Windows.Foundation.UniversalApiContract" 5,
         .IsTypePresent "C"]) := by
  decide

/-! ## Memoization (C4) -/

/-- C4, as the code has it.  Take any instantiation in a translation unit (`IsAtLeast<V>`,
or an existence check with its name array objects and `IntroducedIn`) whose static is not
yet initialised.  Its first call returns whenever the unit's `ApiInformation()` can
return.  Whenever it returns, then in every sequence of that call followed by any number of
further calls of the same instantiation, whatever the platform answers at each later call,
every call returns the value of the first, the state after the last call is the state after
the first (nothing is issued by a later call), and the first call has issued its own call
at most once. -/
theorem C4_memoization (required : WindowsVersion) (c : Call) (api : ApiInformationStatics)
    (later : List ApiInformationStatics) (s : State) (hfirst : s.statics c = none) :
    (handleAvailable api c.unit s = true → ∃ b s1, c.run required api s = .ok (b, s1)) ∧
    ∀ b s1, c.run required api s = .ok (b, s1) →
      runCalls required ((c, api) :: later.map fun a => (c, a)) s =
        .ok (List.replicate (later.length + 1) b, s1) ∧
      s1.log.count c.query ≤ s.log.count c.query + 1 := by
  refine ⟨fun hh => Call.run_total required c hh, fun b s1 hrun => ?_⟩
  obtain ⟨hfilled, -, hcount, -, -⟩ := Call.run_of_ok hfirst hrun
  refine ⟨?_, by rcases hcount with h | ⟨h, -⟩ <;> omega⟩
  rw [List.replicate_succ]
  exact runCalls_cons_ok hrun (runCalls_cached required hfilled later)

/-- C4 as amended, for `IsTypePresent<C, None>` of `ApiCheck.cpp` from the initial state: a
first call on a build where the type exists, then a call on a platform where every call
fails; both return `true` and `IsTypePresent("C")` is issued once. -/
theorem C4_memoization_witness :
    State.initial.statics (.probe (typeC WindowsVersion.None)) = none ∧
    runCalls RequiredVersion
      [(.probe (typeC WindowsVersion.None), runningExactly 5),
       (.probe (typeC WindowsVersion.None), failingPlatform)] State.initial =
      .ok ([true, true], (State.initial.issued ApiCheck_cpp (.IsTypePresent "C")).store
        (.probe (typeC WindowsVersion.None)) true) ∧
    ((State.initial.issued ApiCheck_cpp (.IsTypePresent "C")).store
      (.probe (typeC WindowsVersion.None)) true).log.count (.IsTypePresent "C") ≤ 0 + 1 :=
  ⟨rfl, (C4_memoization RequiredVersion (.probe (typeC WindowsVersion.None))
    (runningExactly 5) [failingPlatform] State.initial rfl).2 true _ rfl⟩

/-- C4 as stated fails.  `IsAtLeast<RS3>` called in `ApiCheck.cpp`, then in `Program.cpp`,
then in `ApiCheck.cpp` again, the platform turning from a build of exactly `RS3` into one
of exactly `RS2` after the first call, returns `true`, `false`, `true` and issues the
contract-version call twice.  `IsTypePresent<C, None>` and `IsTypePresent<CAgain, None>`
of one unit, whose arrays hold the same name, issue `IsTypePresent("C")` twice and return
`true` and `false` when every call fails after the first. -/
theorem C4_counterexample :
    observe (runCalls RequiredVersion
      [(.IsAtLeast ApiCheck_cpp WindowsVersion.RS3, runningExactly 5),
       (.IsAtLeast Program_cpp WindowsVersion.RS3, runningExactly 4),
       (.IsAtLeast ApiCheck_cpp WindowsVersion.RS3, runningExactly 4)] State.initial) =
      some ([true, false, true],
        [.IsApiContractPresentByMajor "Windows.Foundation.UniversalApiContract" 5,
         .IsApiContractPresentByMajor "Windows.Foundation.UniversalApiContract" 5]) ∧
    arrayC.text = arrayCAgain.text ∧
    observe (runCalls RequiredVersion
      [(.probe (.IsTypePresent ApiCheck_cpp arrayC WindowsVersion.None), runningExactly 5),
       (.probe (.IsTypePresent ApiCheck_cpp arrayCAgain WindowsVersion.None),
         failingPlatform)] State.initial) =
      some ([true, false], [.IsTypePresent "C", .IsTypePresent "C"]) := by
  decide

/-! ## `IsAtLeast` on first use (C5) -/

/-- C5. `IsBeforeAppRequiredVersion V` is true iff `V` is not `None` and is strictly below
the required version.  On first use of `IsAtLeast<V>` in a translation unit: when it is
true the result is `true` and nothing is issued (only the static is set); when it is false,
and the unit's `ApiInformation()` can return, the result is the outcome of exactly one
`IsApiContractPresentByMajor` call for `Windows.Foundation.UniversalApiContract` with major
version the number of `V`. -/
theorem C5_IsAtLeast_first_use (required : WindowsVersion) (api : ApiInformationStatics)
    (u : TranslationUnit) (V : WindowsVersion) (s : State)
    (hfirst : s.statics (.IsAtLeast u V) = none) :
    (IsBeforeAppRequiredVersion required V = true ↔
      V ≠ WindowsVersion.None ∧ V.raw < required.raw) ∧
    (IsBeforeAppRequiredVersion required V = true →
      IsAtLeast required api u V s = .ok (true, s.store (.IsAtLeast u V) true)) ∧
    (IsBeforeAppRequiredVersion required V = false → handleAvailable api u s = true →
      IsAtLeast required api u V s =
        .ok ((api.IsApiContractPresentByMajor "Windows.Foundation.UniversalApiContract"
              V.raw).value,
          (s.issued u (.IsApiContractPresentByMajor
              "Windows.Foundation.UniversalApiContract" V.raw)).store (.IsAtLeast u V)
            (api.IsApiContractPresentByMajor "Windows.Foundation.UniversalApiContract"
              V.raw).value) ∧
      (s.issued u (.IsApiContractPresentByMajor "Windows.Foundation.UniversalApiContract"
          V.raw)).log =
        s.log ++ [.IsApiContractPresentByMajor "Windows.Foundation.UniversalApiContract"
          V.raw]) := by
  refine ⟨?_, fun hb => IsAtLeast_before hfirst hb, fun hb hh => ⟨?_, rfl⟩⟩
  · simp [IsBeforeAppRequiredVersion]
  · exact IsAtLeast_query hfirst hb hh

/-- C5 at `TH1` under a required version of `RS1` (no call), and at `RS3` under the shipped
required version on a build of exactly `RS3` (one call). -/
theorem C5_IsAtLeast_first_use_witness :
    IsAtLeast WindowsVersion.RS1 (runningExactly 5) ApiCheck_cpp WindowsVersion.TH1
        State.initial =
      .ok (true, State.initial.store (.IsAtLeast ApiCheck_cpp WindowsVersion.TH1) true) ∧
    IsAtLeast RequiredVersion (runningExactly 5) ApiCheck_cpp WindowsVersion.RS3
        State.initial =
      .ok (((runningExactly 5).IsApiContractPresentByMajor
              "Windows.Foundation.UniversalApiContract" WindowsVersion.RS3.raw).value,
        (State.initial.issued ApiCheck_cpp (.IsApiContractPresentByMajor
            "Windows.Foundation.UniversalApiContract" WindowsVersion.RS3.raw)).store
          (.IsAtLeast ApiCheck_cpp WindowsVersion.RS3)
          ((runningExactly 5).IsApiContractPresentByMajor
            "Windows.Foundation.UniversalApiContract" WindowsVersion.RS3.raw).value) :=
  ⟨(C5_IsAtLeast_first_use WindowsVersion.RS1 (runningExactly 5) ApiCheck_cpp
      WindowsVersion.TH1 State.initial rfl).2.1 (by decide),
   ((C5_IsAtLeast_first_use RequiredVersion (runningExactly 5) ApiCheck_cpp
      WindowsVersion.RS3 State.initial rfl).2.2 (by decide) (by decide)).1⟩

/-! ## The successor short-circuit (C6) -/

/-- C6, as the code has it.  On first use of an existence check with `IntroducedIn = V`
other than `None`: if `IsAtLeast<V>()` returns `true` and then
`IsAtLeast<VersionAfter(V)>()` returns `true`, the check returns `true`; if
`IsAtLeast<V>()` returns `false`, the check returns `false` and
`IsAtLeast<VersionAfter(V)>()` is not consulted.  In both cases the check has not issued
its own call. -/
theorem C6_successor_short_circuit (required : WindowsVersion) (api : ApiInformationStatics)
    (p : Probe) (s : State) (hfirst : s.statics (.probe p) = none)
    (hn : p.IntroducedIn ≠ WindowsVersion.None) :
    (∀ s1 s2, IsAtLeast required api p.unit p.IntroducedIn s = .ok (true, s1) →
      IsAtLeast required api p.unit (VersionAfter p.IntroducedIn) s1 = .ok (true, s2) →
      p.run required api s = .ok (true, s2.store (.probe p) true) ∧
        (s2.store (.probe p) true).log.count p.query = s.log.count p.query) ∧
    (∀ s1, IsAtLeast required api p.unit p.IntroducedIn s = .ok (false, s1) →
      p.run required api s = .ok (false, s1.store (.probe p) false) ∧
        (s1.store (.probe p) false).log.count p.query = s.log.count p.query) := by
  have hne : (p.IntroducedIn != WindowsVersion.None) = true := by simpa using hn
  refine ⟨fun s1 s2 h1 h2 => ⟨?_, ?_⟩, fun s1 h1 => ⟨?_, ?_⟩⟩
  · rw [Probe.run_eq]
    refine staticLocal_first hfirst ?_
    simp [isPresentInit, CanAssumeApiIsNotPresentIfIntroducedIn,
      CanAssumeApiIsPresentIfIntroducedIn, hne, h1, h2]
  · rw [store_log, IsAtLeast_counts h2, IsAtLeast_counts h1]
  · rw [Probe.run_eq]
    refine staticLocal_first hfirst ?_
    simp [isPresentInit, CanAssumeApiIsNotPresentIfIntroducedIn, hne, h1]
  · rw [store_log, IsAtLeast_counts h1]

/-- C6 as amended, for `IsTypePresent<C, RS3>` of `ApiCheck.cpp` from the initial state: on
a build of exactly `RS4` it returns `true` after the two contract-version calls; on the
platform that reports contract major version 6 only it returns `false` after one. -/
theorem C6_successor_short_circuit_witness :
    State.initial.statics (.probe (typeC WindowsVersion.RS3)) = none ∧
    WindowsVersion.RS3 ≠ WindowsVersion.None ∧
    observe ((typeC WindowsVersion.RS3).run RequiredVersion (runningExactly 6)
      State.initial) =
      some (true, [.IsApiContractPresentByMajor "Windows.Foundation.UniversalApiContract" 5,
        .IsApiContractPresentByMajor "Windows.Foundation.UniversalApiContract" 6]) ∧
    observe ((typeC WindowsVersion.RS3).run RequiredVersion onlyContract6 State.initial) =
      some (false,
        [.IsApiContractPresentByMajor "Windows.Foundation.UniversalApiContract" 5]) :=
  ⟨rfl, by decide,
    congrArg observe ((C6_successor_short_circuit RequiredVersion (runningExactly 6)
      (typeC WindowsVersion.RS3) State.initial rfl (by decide)).1 _ _
      (@IsAtLeast_query RequiredVersion (runningExactly 6) ApiCheck_cpp WindowsVersion.RS3
        State.initial rfl (by decide) (by decide))
      (@IsAtLeast_query RequiredVersion (runningExactly 6) ApiCheck_cpp WindowsVersion.RS4
        ((State.initial.issued ApiCheck_cpp
          (Call.IsAtLeast ApiCheck_cpp WindowsVersion.RS3).query).store
            (.IsAtLeast ApiCheck_cpp WindowsVersion.RS3) true)
        (by decide) (by decide) (by decide))).1,
    congrArg observe ((C6_successor_short_circuit RequiredVersion onlyContract6
      (typeC WindowsVersion.RS3) State.initial rfl (by decide)).2 _
      (@IsAtLeast_query RequiredVersion onlyContract6 ApiCheck_cpp WindowsVersion.RS3
        State.initial rfl (by decide) (by decide))).1⟩

/-- C6 as stated fails.  On a platform that reports contract major version 6 but not 5,
`IsAtLeast<VersionAfter(RS3)>()` returns `true` and `IsTypePresent<C, RS3>()` returns
`false`, before and after the version check has been cached. -/
theorem C6_counterexample :
    VersionAfter WindowsVersion.RS3 = WindowsVersion.RS4 ∧
    observe (runCalls RequiredVersion
      [(.IsAtLeast ApiCheck_cpp WindowsVersion.RS4, onlyContract6),
       (.probe (typeC WindowsVersion.RS3), onlyContract6),
       (.IsAtLeast ApiCheck_cpp WindowsVersion.RS4, onlyContract6)] State.initial) =
      some ([true, false, true],
        [.IsApiContractPresentByMajor "Windows.Foundation.UniversalApiContract" 6,
         .IsApiContractPresentByMajor "Windows.Foundation.UniversalApiContract" 5]) := by
  decide

/-! ## Version monotonicity (C7) -/

/-- C7, as the code has it.  Let the platform answer the contract-version call
monotonically: a major version reported present makes every lower one reported present.
For versions `v1 < v2` with `v1` other than `None` (so is `v2` when it is a 16-bit value),
neither yet asked about in the translation units `u1` and `u2` that ask (the same unit or
two), and with `ApiInformation()` able to return in both: calling `IsAtLeast<v2>` and
`IsAtLeast<v1>` on that platform, in either order, returns the same two values, and if the
value for `v2` is `true` so is the value for `v1`. -/
theorem C7_monotone_on_monotone_platform (required : WindowsVersion)
    (api : ApiInformationStatics) (u1 u2 : TranslationUnit) (v1 v2 : WindowsVersion)
    (s : State) (hn1 : v1 ≠ WindowsVersion.None) (hlt : v1.raw < v2.raw)
    (hmono : ∀ m n : Nat, m ≤ n →
      (api.IsApiContractPresentByMajor "Windows.Foundation.UniversalApiContract" n).value
        = true →
      (api.IsApiContractPresentByMajor "Windows.Foundation.UniversalApiContract" m).value
        = true)
    (hf1 : s.statics (.IsAtLeast u1 v1) = none) (hf2 : s.statics (.IsAtLeast u2 v2) = none)
    (hh1 : handleAvailable api u1 s = true) (hh2 : handleAvailable api u2 s = true) :
    ∃ b1 b2 s' s'',
      runCalls required [(.IsAtLeast u2 v2, api), (.IsAtLeast u1 v1, api)] s =
        .ok ([b2, b1], s') ∧
      runCalls required [(.IsAtLeast u1 v1, api), (.IsAtLeast u2 v2, api)] s =
        .ok ([b1, b2], s'') ∧
      (b2 = true → b1 = true) := by
  have hne : v1 ≠ v2 := by
    rintro rfl
    exact lt_irrefl _ hlt
  obtain ⟨s', h21⟩ := runCalls_IsAtLeast_pair required hne.symm hf2 hf1 hh2 hh1
  obtain ⟨s'', h12⟩ := runCalls_IsAtLeast_pair required hne hf1 hf2 hh1 hh2
  refine ⟨_, _, s', s'', h21, h12, fun h2 => ?_⟩
  simp only [Bool.or_eq_true] at h2 ⊢
  rcases h2 with hb2 | hq2
  · left
    simp only [IsBeforeAppRequiredVersion, Bool.and_eq_true, bne_iff_ne, ne_eq,
      decide_eq_true_eq] at hb2 ⊢
    exact ⟨hn1, hlt.trans hb2.2⟩
  · exact Or.inr (hmono v1.raw v2.raw hlt.le hq2)

/-- C7 as amended, for `RS2 < RS3` asked in `ApiCheck.cpp` on a build of exactly `RS3`. -/
theorem C7_monotone_on_monotone_platform_witness :
    WindowsVersion.RS2 ≠ WindowsVersion.None ∧
    WindowsVersion.RS2.raw < WindowsVersion.RS3.raw ∧
    State.initial.statics (.IsAtLeast ApiCheck_cpp WindowsVersion.RS2) = none ∧
    State.initial.statics (.IsAtLeast ApiCheck_cpp WindowsVersion.RS3) = none ∧
    handleAvailable (runningExactly 5) ApiCheck_cpp State.initial = true ∧
    ∃ b1 b2 s' s'',
      runCalls RequiredVersion
        [(.IsAtLeast ApiCheck_cpp WindowsVersion.RS3, runningExactly 5),
         (.IsAtLeast ApiCheck_cpp WindowsVersion.RS2, runningExactly 5)] State.initial =
        .ok ([b2, b1], s') ∧
      runCalls RequiredVersion
        [(.IsAtLeast ApiCheck_cpp WindowsVersion.RS2, runningExactly 5),
         (.IsAtLeast ApiCheck_cpp WindowsVersion.RS3, runningExactly 5)] State.initial =
        .ok ([b1, b2], s'') ∧
      (b2 = true → b1 = true) :=
  ⟨by decide, by decide, rfl, rfl, by decide,
    C7_monotone_on_monotone_platform RequiredVersion (runningExactly 5) ApiCheck_cpp
      ApiCheck_cpp WindowsVersion.RS2 WindowsVersion.RS3 State.initial (by decide)
      (by decide)
      (fun m n hmn h => by
        simp only [runningExactly, platform, Outcome.value, SUCCEEDED, Bool.and_eq_true,
          decide_eq_true_eq] at h ⊢
        exact ⟨h.1, hmn.trans h.2⟩)
      rfl rfl (by decide) (by decide)⟩

/-- C7 as stated fails.  On a platform that reports contract major version 6 but not 5,
`IsAtLeast<RS4>()` is `true` and `IsAtLeast<RS3>()` is `false`, although `RS3 < RS4`. -/
theorem C7_counterexample :
    WindowsVersion.RS3.raw < WindowsVersion.RS4.raw ∧
    observe (runCalls RequiredVersion
      [(.IsAtLeast ApiCheck_cpp WindowsVersion.RS4, onlyContract6),
       (.IsAtLeast ApiCheck_cpp WindowsVersion.RS3, onlyContract6)] State.initial) =
      some ([true, false],
        [.IsApiContractPresentByMajor "Windows.Foundation.UniversalApiContract" 6,
         .IsApiContractPresentByMajor "Windows.Foundation.UniversalApiContract" 5]) := by
  decide

/-! ## Failure-closed (C8) -/

/-- C8, as the code has it.  Each `InternalGetIs...` wrapper returns whenever the unit's
`ApiInformation()` can return; whenever it returns, it returns `false` if the call reported
a failing `HRESULT`, whatever the out-parameter holds, and it returns `true` exactly when
the call succeeded with a true out-parameter.  A first call of an instantiation in a
translation unit (`IsAtLeast<V>`, or an existence check with its name array objects and
`IntroducedIn`) likewise returns whenever `ApiInformation()` can; if it issued its call
while the platform fails that call, it returns `false`, and every later call of the same
instantiation returns `false` and leaves the state as it is, whatever the platform then
answers. -/
theorem C8_failure_closed (required : WindowsVersion) (api : ApiInformationStatics)
    (q : Query) (c : Call) (s : State) (hfirst : s.statics c = none) :
    (handleAvailable api c.unit s = true →
      (∃ b s1, InternalGet api c.unit q s = .ok (b, s1)) ∧
      ∃ b s1, c.run required api s = .ok (b, s1)) ∧
    (∀ u b s1, InternalGet api u q s = .ok (b, s1) →
      ((api.outcome q).hr < 0 → b = false) ∧
      (b = true ↔ 0 ≤ (api.outcome q).hr ∧ (api.outcome q).bResult = true)) ∧
    (∀ b s1, c.run required api s = .ok (b, s1) → (api.outcome c.query).hr < 0 →
      s1.log.count c.query = s.log.count c.query + 1 →
      b = false ∧ ∀ later : List ApiInformationStatics,
        runCalls required (later.map fun a => (c, a)) s1 =
          .ok (List.replicate later.length false, s1)) := by
  refine ⟨fun hh => ⟨⟨_, _, InternalGet_ok q hh⟩, Call.run_total required c hh⟩,
    fun u b s1 hget => ?_, fun b s1 hrun hneg hreach => ?_⟩
  · obtain ⟨-, rfl, -⟩ := InternalGet_of_ok hget
    exact ⟨fun hneg => by simp [Outcome.value, SUCCEEDED, not_le.mpr hneg],
      by simp [Outcome.value, SUCCEEDED]⟩
  · obtain ⟨hfilled, -, hcount, -, -⟩ := Call.run_of_ok hfirst hrun
    have hb : b = false := by
      rcases hcount with h | ⟨-, hv⟩
      · omega
      · simp [hv, Outcome.value, SUCCEEDED, not_le.mpr hneg]
    subst hb
    exact ⟨rfl, runCalls_cached required hfilled⟩

/-- C8 as amended, for `IsTypePresent<C, None>` of `ApiCheck.cpp`: the first call is made
while every call fails with `E_FAIL` (out-parameter `true`), the second on a build where
the type exists; both return `false`. -/
theorem C8_failure_closed_witness :
    State.initial.statics (.probe (typeC WindowsVersion.None)) = none ∧
    (failingPlatform.outcome (.IsTypePresent "C")).hr < 0 ∧
    (failingPlatform.outcome (.IsTypePresent "C")).bResult = true ∧
    ((typeC WindowsVersion.None).run RequiredVersion failingPlatform State.initial =
      .ok (false, (State.initial.issued ApiCheck_cpp (.IsTypePresent "C")).store
        (.probe (typeC WindowsVersion.None)) false)) ∧
    runCalls RequiredVersion
      ([runningExactly 5].map fun a => (.probe (typeC WindowsVersion.None), a))
      ((State.initial.issued ApiCheck_cpp (.IsTypePresent "C")).store
        (.probe (typeC WindowsVersion.None)) false) =
      .ok ([false], (State.initial.issued ApiCheck_cpp (.IsTypePresent "C")).store
        (.probe (typeC WindowsVersion.None)) false) :=
  ⟨rfl, by decide, rfl, rfl,
    ((C8_failure_closed RequiredVersion failingPlatform (.IsTypePresent "C")
      (.probe (typeC WindowsVersion.None)) State.initial rfl).2.2
        false _ rfl (by decide) (by decide)).2 [runningExactly 5]⟩

/-- C8 as stated fails.  `IsTypePresent<C, None>` called in `ApiCheck.cpp` while every call
fails returns `false`; the same check called afterwards in `Program.cpp`, or in
`ApiCheck.cpp` through another array holding the same name, on a build where the type
exists issues `IsTypePresent("C")` again and returns `true`. -/
theorem C8_counterexample :
    observe (runCalls RequiredVersion
      [(.probe (.IsTypePresent ApiCheck_cpp arrayC WindowsVersion.None), failingPlatform),
       (.probe (.IsTypePresent Program_cpp arrayC WindowsVersion.None), runningExactly 5)]
      State.initial) =
      some ([false, true], [.IsTypePresent "C", .IsTypePresent "C"]) ∧
    arrayC.text = arrayCAgain.text ∧
    observe (runCalls RequiredVersion
      [(.probe (.IsTypePresent ApiCheck_cpp arrayC WindowsVersion.None), failingPlatform),
       (.probe (.IsTypePresent ApiCheck_cpp arrayCAgain WindowsVersion.None),
         runningExactly 5)]
      State.initial) =
      some ([false, true], [.IsTypePresent "C", .IsTypePresent "C"]) := by
  decide

/-! ## Version navigation (C9) -/

/-- C9. Gap handling: on every enumerator other than `None` and `CY20H1`, `VersionAfter`
gives the least enumerator above it; on every enumerator other than `None` and `TH1`,
`VersionBefore` gives the greatest enumerator below it; `VersionAfter CY19H1 = CY20H1`,
`VersionBefore CY20H1 = CY19H1`, and the unshipped number 9 is never returned on these
inputs. -/
theorem C9_gap_handling :
    (∀ v ∈ WindowsVersion.defined, v ≠ WindowsVersion.CY20H1 →
      VersionAfter v ∈ WindowsVersion.defined ∧ v.raw < (VersionAfter v).raw ∧
      (∀ w ∈ WindowsVersion.defined, v.raw < w.raw → (VersionAfter v).raw ≤ w.raw) ∧
      (VersionAfter v).raw ≠ 9) ∧
    (∀ v ∈ WindowsVersion.defined, v ≠ WindowsVersion.TH1 →
      VersionBefore v ∈ WindowsVersion.defined ∧ (VersionBefore v).raw < v.raw ∧
      (∀ w ∈ WindowsVersion.defined, w.raw < v.raw → w.raw ≤ (VersionBefore v).raw) ∧
      (VersionBefore v).raw ≠ 9) ∧
    VersionAfter WindowsVersion.CY19H1 = WindowsVersion.CY20H1 ∧
    VersionBefore WindowsVersion.CY20H1 = WindowsVersion.CY19H1 := by
  decide

/-- C9 at `CY19H1` and at `CY20H1`, the two enumerators around the gap. -/
theorem C9_gap_handling_witness :
    (WindowsVersion.CY19H1 ∈ WindowsVersion.defined ∧
      WindowsVersion.CY19H1 ≠ WindowsVersion.CY20H1 ∧
      VersionAfter WindowsVersion.CY19H1 ∈ WindowsVersion.defined ∧
      WindowsVersion.CY19H1.raw < (VersionAfter WindowsVersion.CY19H1).raw ∧
      (∀ w ∈ WindowsVersion.defined, WindowsVersion.CY19H1.raw < w.raw →
        (VersionAfter WindowsVersion.CY19H1).raw ≤ w.raw) ∧
      (VersionAfter WindowsVersion.CY19H1).raw ≠ 9) ∧
    (WindowsVersion.CY20H1 ∈ WindowsVersion.defined ∧
      WindowsVersion.CY20H1 ≠ WindowsVersion.TH1 ∧
      VersionBefore WindowsVersion.CY20H1 ∈ WindowsVersion.defined ∧
      (VersionBefore WindowsVersion.CY20H1).raw < WindowsVersion.CY20H1.raw ∧
      (∀ w ∈ WindowsVersion.defined, w.raw < WindowsVersion.CY20H1.raw →
        w.raw ≤ (VersionBefore WindowsVersion.CY20H1).raw) ∧
      (VersionBefore WindowsVersion.CY20H1).raw ≠ 9) :=
  ⟨⟨by decide, by decide,
      C9_gap_handling.1 WindowsVersion.CY19H1 (by decide) (by decide)⟩,
    ⟨by decide, by decide,
      C9_gap_handling.2.1 WindowsVersion.CY20H1 (by decide) (by decide)⟩⟩

/-! ## The wrappers of `ApiCheck.cpp` (C10) -/

/-- C10.  On a build of exactly `RS3` where the event `UIElement.PreviewKeyDown` exists,
`ArePreviewKeyEventsAvailable()` issues `IsPropertyPresent` for that owner and member,
never `IsEventPresent`, and returns `false`; `IsEventPresent<UIElement, PreviewKeyDown,
RS3>()` on the same build returns `true`. -/
theorem C10_asks_for_a_property :
    (previewKeyPlatform.IsEventPresent RuntimeClass_Windows_UI_Xaml_UIElement.text
      PreviewKeyDown.text).value = true ∧
    observe (ArePreviewKeyEventsAvailable RequiredVersion previewKeyPlatform State.initial) =
      some (false,
        [.IsApiContractPresentByMajor "Windows.Foundation.UniversalApiContract" 5,
         .IsApiContractPresentByMajor "Windows.Foundation.UniversalApiContract" 6,
         .IsPropertyPresent "Windows.UI.Xaml.UIElement" "PreviewKeyDown"]) ∧
    observe (IsEventPresent RequiredVersion previewKeyPlatform ApiCheck_cpp
      RuntimeClass_Windows_UI_Xaml_UIElement PreviewKeyDown WindowsVersion.RS3
      State.initial) =
      some (true,
        [.IsApiContractPresentByMajor "Windows.Foundation.UniversalApiContract" 5,
         .IsApiContractPresentByMajor "Windows.Foundation.UniversalApiContract" 6,
         .IsEventPresent "Windows.UI.Xaml.UIElement" "PreviewKeyDown"]) := by
  decide

end ApiCheck
